import Mathlib

/-!
# nsm-init: discovery and connection-request wait loops

A shallow embedding of `cmd/nsm-init/nsm-init.go`: the two wait loops
(`getNetworkServices`, `requestConnection`), the per-attempt classification of a
broker reply inside `requestConnection`, and the orchestration done by `main`.

Time is counted in nanoseconds, as `time.Duration` does.  A wait loop blocks in
`select` on two events: the ticker (tick `n` fires at `n * retry`, `n ≥ 1`) and the
context deadline (fires at `timeout`).  Calls to the broker take no time, so no
tick is ever dropped.  The broker is given by the sequence of replies the client
stub returns to successive calls.
-/

namespace NsmInit

/-! ## Status codes and errors -/

/-- The gRPC status codes of `google.golang.org/grpc/codes`. -/
inductive Code
  | OK | Canceled | Unknown | InvalidArgument | DeadlineExceeded | NotFound
  | AlreadyExists | PermissionDenied | ResourceExhausted | FailedPrecondition
  | Aborted | OutOfRange | Unimplemented | Internal | Unavailable | DataLoss
  | Unauthenticated
  deriving DecidableEq, Repr

/-- The name `codes.Code.String()` prints. -/
def Code.name : Code → String
  | .OK => "OK"
  | .Canceled => "Canceled"
  | .Unknown => "Unknown"
  | .InvalidArgument => "InvalidArgument"
  | .DeadlineExceeded => "DeadlineExceeded"
  | .NotFound => "NotFound"
  | .AlreadyExists => "AlreadyExists"
  | .PermissionDenied => "PermissionDenied"
  | .ResourceExhausted => "ResourceExhausted"
  | .FailedPrecondition => "FailedPrecondition"
  | .Aborted => "Aborted"
  | .OutOfRange => "OutOfRange"
  | .Unimplemented => "Unimplemented"
  | .Internal => "Internal"
  | .Unavailable => "Unavailable"
  | .DataLoss => "DataLoss"
  | .Unauthenticated => "Unauthenticated"

/-- A non-nil Go `error` as the broker stub returns it: either a gRPC status error
(code and description) or an error of some other type. A nil error is `none` of
`Option GoError`. -/
inductive GoError
  | status (code : Code) (desc : String)
  | other (text : String)
  deriving DecidableEq, Repr

/-- The text of `err.Error()`. -/
def GoError.Error : GoError → String
  | .status c desc => "rpc error: code = " ++ c.name ++ " desc = " ++ desc
  | .other text => text

/-- The value of `status.Convert(err).Code()`: `OK` for a nil error, the code of a status
error, `Unknown` for an error that is not a status. -/
def statusCode : Option GoError → Code
  | none => .OK
  | some (.status c _) => c
  | some (.other _) => .Unknown

/-- The text the verb `%+v` prints for an error value. -/
def fmtError : Option GoError → String
  | none => "<nil>"
  | some e => e.Error

/-! ## Messages -/

/-- The message `common.Metadata`. -/
structure Metadata where
  Name : String
  Namespace : String
  deriving DecidableEq, Repr

/-- The message `common.Interface`; its two enumerations are kept as numbers. -/
structure Interface where
  Type_ : Nat
  Preference : Nat
  deriving DecidableEq, Repr

/-- The message `netmesh.NetworkServiceChannel`, as far as `main` reads it. `Metadata` is
a pointer, nil (`none`) when the broker sent the channel without metadata; the entries of
the repeated field `Interface` are never nil in a decoded message. -/
structure Channel where
  Metadata : Option Metadata
  Interface : List Interface
  deriving DecidableEq, Repr

/-- The message `netmesh.NetworkService`, as far as `main` reads it. `Metadata` is a
pointer, nil (`none`) when the broker sent the service without metadata; the entries of
the repeated field `Channel` are never nil in a decoded message. -/
structure NetworkService where
  Metadata : Option Metadata
  Channel : List Channel
  deriving DecidableEq, Repr

/-- The type `networkService` of the source: one entry of the client's ConfigMap. The
entries of `ServiceInterface` are pointers, nil (`none`) for a null in the YAML. -/
structure networkService where
  Name : String
  ServiceInterface : List (Option Interface)
  deriving DecidableEq, Repr

/-- The message `nsmconnect.ConnectionRequest`. -/
structure ConnectionRequest where
  RequestId : String
  Metadata : Option Metadata
  NetworkServiceName : String
  LinuxNamespace : String
  Interface : List (Option Interface)
  deriving DecidableEq, Repr

/-- The message `nsmconnect.ConnectionParameters`: opaque to the client, kept as
a list of key/value pairs. -/
structure ConnectionParameters where
  entries : List (String × String)
  deriving DecidableEq, Repr

/-- The reply message of `RequestConnection`, with the three fields the client
reads. `ConnectionParameters` is a pointer and may be nil. -/
structure ConnectionReply where
  Accepted : Bool
  AdmissionError : String
  ConnectionParameters : Option ConnectionParameters
  deriving DecidableEq, Repr

/-- What one call of `nsmClient.RequestConnection` returns, the pair `(cResp, err)`.
A nil error always comes with a reply message (the gRPC client contract, and what
the source relies on when it reads `cResp.Accepted` after `err == nil`); a non-nil
error may or may not come with one. -/
inductive BrokerReply
  | ok (cResp : ConnectionReply)
  | fail (cResp : Option ConnectionReply) (err : GoError)
  deriving DecidableEq, Repr

/-- The `err` component of a reply. -/
def BrokerReply.err : BrokerReply → Option GoError
  | .ok _ => none
  | .fail _ e => some e

/-- The `cResp` component of a reply (nil is `none`). -/
def BrokerReply.cResp : BrokerReply → Option ConnectionReply
  | .ok c => some c
  | .fail c _ => c

/-- What one call of `nsmClient.RequestDiscovery` returns: the service list of the
response when the error is nil, else the error. -/
inductive DiscoveryReply
  | ok (NetworkService : List NetworkService)
  | fail (err : GoError)
  deriving DecidableEq, Repr

/-! ## Constants -/

/-- The constant `time.Second`, in nanoseconds. -/
def timeSecond : Nat := 1000000000

/-- The time the client waits for establishing connection with the server. -/
def clientConnectionTimeout : Nat := timeSecond * 60

/-- The retry interval for establishing connection with the server: the interval of the
ticker of both wait loops (the comment of the source names `clientConnectionTimeout`
above this constant). -/
def clientConnectionRetry : Nat := timeSecond * 2

/-! ## Errors and log lines produced by the client -/

/-- The errors the two wait loops build with `fmt.Errorf`, one constructor for each
format string, holding the arguments of the call. -/
inductive ClientError
  | discoveryTimeout (timeout : Nat) (err : Option GoError)
  | connectionTimeout (timeout : Nat) (err : Option GoError)
  | connectionFailed (err : Option GoError)
  deriving DecidableEq, Repr

/-- The text of the error, as the format strings of the source give it. -/
def ClientError.Error : ClientError → String
  | .discoveryTimeout timeout err =>
      "nsm client: Discovery request did not succeed within " ++ toString timeout
        ++ " seconds, last known error: " ++ fmtError err
  | .connectionTimeout timeout err =>
      "nsm client: Request Connection to NSM timedout (" ++ toString timeout
        ++ ")seconds with error: " ++ fmtError err
  | .connectionFailed err =>
      "nsm client: Request Connection to NSM has failed with error: " ++ fmtError err

/-- The `logrus.Infof` lines of the two wait loops, holding the arguments of the call. -/
inductive LogEntry
  | discoveryFailed (err : GoError) (retry : Nat)
  | alreadyExists (retry : Nat)
  | requestFailed (err : Option GoError) (retry : Nat)
  | admissionError (AdmissionError : String) (RequestId : String)
  deriving DecidableEq, Repr

/-! ## The `select` of the wait loops -/

/-- The two cases of the `select` statement. -/
inductive SelectCase
  | ctxDone
  | tick
  deriving DecidableEq, Repr

/-- The case the `select` takes once `n` ticks have been received: it blocks until the
earlier of the next tick, at `(n + 1) * retry`, and the deadline, at `timeout`. When
both fall on the same instant both cases are ready and Go picks one of them at random:
`sched n` tells whether the tick is picked. -/
def selectCase (sched : Nat → Bool) (timeout retry n : Nat) : SelectCase :=
  if (n + 1) * retry < timeout then .tick
  else if timeout < (n + 1) * retry then .ctxDone
  else if sched n then .tick else .ctxDone

/-! ## requestConnection -/

/-- How the body of the `case <-ticker.C` branch of `requestConnection` ends. -/
inductive Attempt
  | success (params : Option ConnectionParameters)
  | failure (e : ClientError)
  | again (log : List LogEntry)
  deriving DecidableEq, Repr

/-- The `switch status.Convert(err).Code()` of `requestConnection` with the
`if cResp != nil` that follows it. -/
def requestConnectionSwitch (retry : Nat) (cReq : ConnectionRequest)
    (cResp : Option ConnectionReply) (err : Option GoError) : Attempt :=
  let admission : List LogEntry :=
    match cResp with
    | some c => [.admissionError c.AdmissionError cReq.RequestId]
    | none => []
  match statusCode err with
  | .Aborted => .failure (.connectionFailed err)
  | .NotFound => .failure (.connectionFailed err)
  | .AlreadyExists => .again (.alreadyExists retry :: admission)
  | _ => .again (.requestFailed err retry :: admission)

/-- The body of the `case <-ticker.C` branch of `requestConnection`, applied to the
reply of the broker call. -/
def requestConnectionAttempt (retry : Nat) (cReq : ConnectionRequest) :
    BrokerReply → Attempt
  | .ok cResp =>
      if cResp.Accepted then .success cResp.ConnectionParameters
      else requestConnectionSwitch retry cReq (some cResp) none
  | .fail cResp err => requestConnectionSwitch retry cReq cResp (some err)

/-- One call of `nsmClient.RequestConnection`: the instant it is made and the request
it carries. -/
structure Call where
  time : Nat
  cReq : ConnectionRequest
  deriving DecidableEq, Repr

/-- What a run of `requestConnection` does: the two returned values, the broker calls
made, the time elapsed since loop entry at return, and the lines logged. -/
structure ConnResult where
  params : Option ConnectionParameters
  err : Option ClientError
  calls : List Call
  elapsed : Nat
  log : List LogEntry
  deriving DecidableEq, Repr

/-- Put one more broker call and its log lines in front of what follows. -/
def ConnResult.after (c : Call) (log : List LogEntry) (r : ConnResult) : ConnResult :=
  { r with calls := c :: r.calls, log := log ++ r.log }

/-- The `for` loop of `requestConnection`, entered with `n` ticks received and the
function-level variable `err` (declared before the loop). The `err` assigned by
`cResp, err := ...` is a new variable of the `case` block, so the function-level one
is handed on unchanged. `none` when `fuel` iterations do not reach a `return`. -/
def requestConnectionLoop (sched : Nat → Bool) (timeout retry : Nat)
    (replies : Nat → BrokerReply) (cReq : ConnectionRequest) (err : Option GoError) :
    Nat → Nat → Option ConnResult
  | 0, _ => none
  | fuel + 1, n =>
    match selectCase sched timeout retry n with
    | .ctxDone =>
        some { params := none, err := some (.connectionTimeout timeout err),
               calls := [], elapsed := timeout, log := [] }
    | .tick =>
        let call : Call := { time := (n + 1) * retry, cReq := cReq }
        match requestConnectionAttempt retry cReq (replies n) with
        | .success params =>
            some { params := params, err := none, calls := [call],
                   elapsed := (n + 1) * retry, log := [] }
        | .failure e =>
            some { params := none, err := some e, calls := [call],
                   elapsed := (n + 1) * retry, log := [] }
        | .again log =>
            (requestConnectionLoop sched timeout retry replies cReq err fuel (n + 1)).map
              (ConnResult.after call log)

/-- The function `requestConnection`, for a deadline `timeout` and a tick interval
`retry`; `replies n` is what the broker call of attempt `n + 1` returns. `none` is a
panic: `time.NewTicker` panics on an interval that is not positive. -/
def requestConnectionWith (sched : Nat → Bool) (timeout retry : Nat)
    (replies : Nat → BrokerReply) (cReq : ConnectionRequest) : Option ConnResult :=
  if retry = 0 then none
  else requestConnectionLoop sched timeout retry replies cReq none (timeout / retry + 2) 0

/-- The function `requestConnection` with the constants of the source. -/
def requestConnection (sched : Nat → Bool) (replies : Nat → BrokerReply)
    (cReq : ConnectionRequest) : Option ConnResult :=
  requestConnectionWith sched clientConnectionTimeout clientConnectionRetry replies cReq

/-! ## getNetworkServices -/

/-- What a run of `getNetworkServices` does: the two returned values (a nil slice is
the empty list), the instants of the broker calls made, the time elapsed since loop
entry at return, and the lines logged. -/
structure DiscResult where
  services : List NetworkService
  err : Option ClientError
  calls : List Nat
  elapsed : Nat
  log : List LogEntry
  deriving DecidableEq, Repr

/-- Put one more broker call and its log line in front of what follows. -/
def DiscResult.after (t : Nat) (log : List LogEntry) (r : DiscResult) : DiscResult :=
  { r with calls := t :: r.calls, log := log ++ r.log }

/-- The `for` loop of `getNetworkServices`, entered with `n` ticks received and the
function-level variable `err`. As in `requestConnection`, `resp, err := ...` declares a
new `err` inside the `case` block, so the function-level one is handed on unchanged.
`none` when `fuel` iterations do not reach a `return`. -/
def getNetworkServicesLoop (sched : Nat → Bool) (timeout retry : Nat)
    (replies : Nat → DiscoveryReply) (err : Option GoError) :
    Nat → Nat → Option DiscResult
  | 0, _ => none
  | fuel + 1, n =>
    match selectCase sched timeout retry n with
    | .ctxDone =>
        some { services := [], err := some (.discoveryTimeout timeout err),
               calls := [], elapsed := timeout, log := [] }
    | .tick =>
        match replies n with
        | .ok services =>
            some { services := services, err := none, calls := [(n + 1) * retry],
                   elapsed := (n + 1) * retry, log := [] }
        | .fail e =>
            (getNetworkServicesLoop sched timeout retry replies err fuel (n + 1)).map
              (DiscResult.after ((n + 1) * retry) [.discoveryFailed e retry])

/-- The function `getNetworkServices`, for a deadline `timeout` and a tick interval
`retry`; `replies n` is what the broker call of attempt `n + 1` returns. `none` is a
panic: `time.NewTicker` panics on an interval that is not positive. -/
def getNetworkServicesWith (sched : Nat → Bool) (timeout retry : Nat)
    (replies : Nat → DiscoveryReply) : Option DiscResult :=
  if retry = 0 then none
  else getNetworkServicesLoop sched timeout retry replies none (timeout / retry + 2) 0

/-- The function `getNetworkServices` with the constants of the source. -/
def getNetworkServices (sched : Nat → Bool) (replies : Nat → DiscoveryReply) :
    Option DiscResult :=
  getNetworkServicesWith sched clientConnectionTimeout clientConnectionRetry replies

/-! ## main -/

/-- The pointer `flag.String(name, value, usage)` returns, read after `flag.Parse()`:
it is never nil and points to the value given on the command line, or to the default
`value` when the flag was not given. -/
def flagString (value : String) (given : Option String) : Option String :=
  some (given.getD value)

/-- The socket path `main` checks and connects to (the variable `clientSocket`):
`clientSocketPath`, replaced by `*clientSocketUserPath` when that pointer is not
nil. -/
def clientSocket (clientSocketPath : String) (clientSocketUserPath : Option String) :
    String :=
  match clientSocketUserPath with
  | some userPath => userPath
  | none => clientSocketPath

/-- What `main` reads from outside the process before it talks to the broker: flags,
environment variables and the results of the calls to Kubernetes, to the file system
and to package `tools`. `clientSocketPath` is the value of the package variable of
that name, `decode` the YAML decoder used by `parseConfigMap`; the list it fills is a
`[]*networkService`, whose entries are nil (`none`) for a null in the YAML. -/
structure Env where
  buildClient : Option GoError
  configMapName : String
  nsmSocket : Option String
  INIT_NAMESPACE : String
  HOSTNAME : String
  podUID : Except GoError String
  configMap : Except GoError (List (String × String))
  decode : String → Except GoError (List (Option networkService))
  clientSocketPath : String
  stat : String → Option GoError
  SocketOperationCheck : String → Option GoError
  GetCurrentNS : Except GoError String

/-- The function `parseConfigMap`, on the `Data` of the ConfigMap. -/
def parseConfigMap (decode : String → Except GoError (List (Option networkService)))
    (data : List (String × String)) : Except GoError (List (Option networkService)) :=
  match data.lookup "networkService" with
  | none => .error (.other "missing required key 'networkService:'")
  | some rawData => decode rawData

/-- The error line `main` logs before it exits with status 1, holding the arguments
of the call. -/
inductive Fatal
  | buildClient (err : GoError)
  | noNamespace
  | getPod (namespace_ podName : String) (err : GoError)
  | configMap (namespace_ name : String) (err : GoError)
  | parseConfigMap (namespace_ name : String) (err : GoError)
  | socketStat (clientSocket : String) (err : GoError)
  | socketCheck (clientSocket : String) (err : GoError)
  | discovery (err : ClientError)
  | linuxNS (namespace_ podName : String) (err : GoError)
  | connection (Name : String) (err : ClientError)
  deriving DecidableEq, Repr

/-- One pass of the `for _, ns := range networkServices` loop of `main` that reached
`requestConnection`: the entry and what the call did. -/
structure Run where
  ns : networkService
  result : ConnResult
  deriving DecidableEq, Repr

/-- What a run of `main` does: the exit status (0, 1 after an error line, 2 after a
panic on a nil pointer), the error line logged when it is 1, the run of
`getNetworkServices` if it was reached, and the runs of `requestConnection` in the order
they were made. -/
structure MainResult where
  exitCode : Nat
  fatal : Option Fatal
  discovery : Option DiscResult
  runs : List Run
  deriving DecidableEq, Repr

/-- The `ConnectionRequest` the loop of `main` builds for the entry `ns`. -/
def connectionRequest (podUID podName namespace_ linuxNS : String) (ns : networkService) :
    ConnectionRequest :=
  { RequestId := podUID,
    Metadata := some { Name := podName, Namespace := namespace_ },
    NetworkServiceName := ns.Name,
    LinuxNamespace := linuxNS,
    Interface := ns.ServiceInterface }

/-- The lines the listing of the discovered services logs (lines 190 to 199 of the
source), holding the arguments of the call. -/
inductive InfoLine
  | networkService (Namespace Name : String)
  | channel (Namespace Name : String)
  | interface (Type_ Preference : Nat)
  deriving DecidableEq, Repr

/-- The `for _, c := range s.Channel` loop of `main`: it reads `c.Metadata.Namespace`
and `c.Metadata.Name`, which panics on a nil `c.Metadata` (`none`), and then logs the
interfaces through their nil-safe getters. -/
def logChannels : List Channel → Option (List InfoLine)
  | [] => some []
  | c :: rest =>
    match c.Metadata with
    | none => none
    | some md =>
      (logChannels rest).map (fun lines =>
        .channel md.Namespace md.Name
          :: (c.Interface.map (fun i => InfoLine.interface i.Type_ i.Preference) ++ lines))

/-- The `for _, s := range availablaNetworkServices` loop of `main`: it reads
`s.Metadata.Namespace` and `s.Metadata.Name`, which panics on a nil `s.Metadata`
(`none`), and then lists the channels of the service. -/
def logNetworkServices : List NetworkService → Option (List InfoLine)
  | [] => some []
  | s :: rest =>
    match s.Metadata with
    | none => none
    | some md =>
      match logChannels s.Channel with
      | none => none
      | some channels =>
        (logNetworkServices rest).map (fun lines =>
          .networkService md.Namespace md.Name :: (channels ++ lines))

/-- How the `for _, ns := range networkServices` loop of `main` ends: it runs through,
it stops at a failed `requestConnection` with an error line, or it panics on a nil
entry of the list. -/
inductive LoopEnd
  | completed
  | failed (fatal : Fatal)
  | panicked
  deriving DecidableEq, Repr

/-- The `for _, ns := range networkServices` loop of `main`. `sched i` schedules the
`select` of the wait loop of pass `i`, and `replies` lists what the broker returns to
the successive `RequestConnection` calls of the process, `base` of which were made in
earlier passes. A nil entry (`none`) panics when the request is built from `ns.Name`.
The result is how the loop ends and the runs made. -/
def requestConnections (sched : Nat → Nat → Bool) (replies : Nat → BrokerReply)
    (podUID podName namespace_ linuxNS : String) :
    Nat → Nat → List (Option networkService) → Option (LoopEnd × List Run)
  | _, _, [] => some (.completed, [])
  | _, _, none :: _ => some (.panicked, [])
  | i, base, some ns :: rest =>
    match requestConnection (sched i) (fun n => replies (base + n))
        (connectionRequest podUID podName namespace_ linuxNS ns) with
    | none => none
    | some r =>
      match r.err with
      | some err => some (.failed (.connection ns.Name err), [{ ns := ns, result := r }])
      | none =>
        (requestConnections sched replies podUID podName namespace_ linuxNS (i + 1)
            (base + r.calls.length) rest).map
          (fun p => (p.1, { ns := ns, result := r } :: p.2))

/-- The part of `main` that starts at the call of `getNetworkServices`, reached with a
non-empty list `networkServices` and a connection to the socket. `schedDiscovery`
schedules the `select` of the discovery loop, `discoveries` lists the replies of the
broker to `RequestDiscovery`. A panic ends the process with exit status 2 and no error
line. -/
def mainInit (schedDiscovery : Nat → Bool) (sched : Nat → Nat → Bool)
    (discoveries : Nat → DiscoveryReply) (replies : Nat → BrokerReply)
    (GetCurrentNS : Except GoError String) (podUID podName namespace_ : String)
    (networkServices : List (Option networkService)) : Option MainResult :=
  match getNetworkServices schedDiscovery discoveries with
  | none => none
  | some d =>
    match d.err with
    | some err =>
        some { exitCode := 1, fatal := some (.discovery err), discovery := some d, runs := [] }
    | none =>
      if d.services.length = 0 then
        some { exitCode := 0, fatal := none, discovery := some d, runs := [] }
      else
        match logNetworkServices d.services with
        | none => some { exitCode := 2, fatal := none, discovery := some d, runs := [] }
        | some _ =>
          match GetCurrentNS with
          | .error err =>
              some { exitCode := 1, fatal := some (.linuxNS namespace_ podName err),
                     discovery := some d, runs := [] }
          | .ok linuxNS =>
            match requestConnections sched replies podUID podName namespace_ linuxNS 0 0
                networkServices with
            | none => none
            | some (.failed fatal, runs) =>
                some { exitCode := 1, fatal := some fatal, discovery := some d, runs := runs }
            | some (.completed, runs) =>
                some { exitCode := 0, fatal := none, discovery := some d, runs := runs }
            | some (.panicked, runs) =>
                some { exitCode := 2, fatal := none, discovery := some d, runs := runs }

/-- The function `main`. A process that leaves by `os.Exit(0)` before the broker is
contacted has no error line and no runs. -/
def main (env : Env) (schedDiscovery : Nat → Bool) (sched : Nat → Nat → Bool)
    (discoveries : Nat → DiscoveryReply) (replies : Nat → BrokerReply) :
    Option MainResult :=
  let stop (fatal : Fatal) : Option MainResult :=
    some { exitCode := 1, fatal := some fatal, discovery := none, runs := [] }
  let leave : Option MainResult :=
    some { exitCode := 0, fatal := none, discovery := none, runs := [] }
  match env.buildClient with
  | some err => stop (.buildClient err)
  | none =>
    if env.configMapName = "" then leave
    else if env.INIT_NAMESPACE = "" then stop .noNamespace
    else
      match env.podUID with
      | .error err => stop (.getPod env.INIT_NAMESPACE env.HOSTNAME err)
      | .ok podUID =>
        match env.configMap with
        | .error err => stop (.configMap env.INIT_NAMESPACE env.configMapName err)
        | .ok data =>
          match parseConfigMap env.decode data with
          | .error err => stop (.parseConfigMap env.INIT_NAMESPACE env.configMapName err)
          | .ok networkServices =>
            if networkServices.length = 0 then leave
            else
              let socket := clientSocket env.clientSocketPath (flagString "" env.nsmSocket)
              match env.stat socket with
              | some err => stop (.socketStat socket err)
              | none =>
                match env.SocketOperationCheck socket with
                | some err => stop (.socketCheck socket err)
                | none =>
                  mainInit schedDiscovery sched discoveries replies env.GetCurrentNS
                    podUID env.HOSTNAME env.INIT_NAMESPACE networkServices

/-! ## The decision table of the specification -/

/-- The three classes of the decision table. -/
inductive Classification
  | Success
  | Permanent
  | Transient
  deriving DecidableEq, Repr

/-- The `accepted` flag of the result of a reply; a reply without a message has none. -/
def BrokerReply.accepted (r : BrokerReply) : Bool :=
  match r.cResp with
  | some c => c.Accepted
  | none => false

/-- The decision table as the specification words it: Success when the error is nil and
the result is accepted, Permanent when the error code is Aborted or NotFound, Transient
in every other case. -/
def Classify (r : BrokerReply) : Classification :=
  if r.err = none ∧ r.accepted = true then .Success
  else if statusCode r.err = .Aborted ∨ statusCode r.err = .NotFound then .Permanent
  else .Transient

/-- The replies the generated gRPC client stub returns: with a non-nil error the reply
message is nil. -/
def BrokerReply.fromClient (r : BrokerReply) : Prop :=
  r.err ≠ none → r.cResp = none

instance (r : BrokerReply) : Decidable r.fromClient := by
  unfold BrokerReply.fromClient
  infer_instance

/-- The calls of the attempts `n + 1`, ..., `n + k`, one at each tick. -/
def tickCalls (retry : Nat) (cReq : ConnectionRequest) : Nat → Nat → List Call
  | _, 0 => []
  | n, k + 1 => { time := (n + 1) * retry, cReq := cReq } :: tickCalls retry cReq (n + 1) k

/-- The instants of the ticks `n + 1`, ..., `n + k`. -/
def tickTimes (retry : Nat) : Nat → Nat → List Nat
  | _, 0 => []
  | n, k + 1 => (n + 1) * retry :: tickTimes retry (n + 1) k

/-- Whether `needle` occurs in `text` as a run of consecutive characters. -/
def occursIn (needle text : String) : Prop :=
  needle.data <:+: text.data

instance (needle text : String) : Decidable (occursIn needle text) := by
  unfold occursIn
  infer_instance

/-! ## Auxiliary definitions and example inputs -/

/-- Put a list of broker calls and log lines in front of a result. -/
def ConnResult.afterAll (calls : List Call) (log : List LogEntry) (r : ConnResult) :
    ConnResult :=
  { r with calls := calls ++ r.calls, log := log ++ r.log }

/-- Put a list of broker calls and log lines in front of a result. -/
def DiscResult.afterAll (calls : List Nat) (log : List LogEntry) (r : DiscResult) :
    DiscResult :=
  { r with calls := calls ++ r.calls, log := log ++ r.log }

/-- A request for the service `A` of a pod with UID `uid-1`. -/
def exampleRequest : ConnectionRequest :=
  { RequestId := "uid-1", Metadata := some { Name := "pod", Namespace := "default" },
    NetworkServiceName := "A", LinuxNamespace := "ns-1", Interface := [] }

/-- A reply that accepts the connection. -/
def acceptedReply : BrokerReply :=
  .ok { Accepted := true, AdmissionError := "", ConnectionParameters := some ⟨[("if", "eth1")]⟩ }

/-- A broker that answers `AlreadyExists` to every call. -/
def alwaysAlreadyExists : Nat → BrokerReply :=
  fun _ => .fail none (.status .AlreadyExists "in progress")

/-- A broker that answers `AlreadyExists` to the first call and `Aborted` to the next. -/
def abortedOnSecond : Nat → BrokerReply :=
  fun n => if n < 1 then .fail none (.status .AlreadyExists "in progress")
    else .fail none (.status .Aborted "rejected")

/-- A broker that answers `AlreadyExists` to the first two calls and accepts the third. -/
def acceptedOnThird : Nat → BrokerReply :=
  fun n => if n < 2 then .fail none (.status .AlreadyExists "in progress") else acceptedReply

/-- A broker that answers `Aborted` to the first call and would accept the second. -/
def abortedThenAccepted : Nat → BrokerReply :=
  fun n => if n < 1 then .fail none (.status .Aborted "rejected") else acceptedReply

/-- A broker whose discovery is unavailable at every call. -/
def discoveryDown : Nat → DiscoveryReply :=
  fun _ => .fail (.status .Unavailable "down")

/-- A broker whose discovery fails once and then returns an empty list. -/
def discoveryEmptyOnSecond : Nat → DiscoveryReply :=
  fun n => if n < 1 then .fail (.status .Unavailable "down") else .ok []

/-- A broker whose discovery fails twice and then returns an empty list. -/
def discoveryOnThird : Nat → DiscoveryReply :=
  fun n => if n < 2 then .fail (.status .Unavailable "down") else .ok []

/-- A broker that is unavailable at every `RequestConnection` call. -/
def connectionDown : Nat → BrokerReply :=
  fun _ => .fail none (.status .Unavailable "down")

/-- The error component of a discovery reply (nil is `none`). -/
def DiscoveryReply.err : DiscoveryReply → Option GoError
  | .ok _ => none
  | .fail e => some e

/-- The number of broker calls made in a list of runs. -/
def callsBefore (runs : List Run) : Nat :=
  (runs.map (fun run => run.result.calls.length)).sum

/-- The desired services `A` and `B`. -/
def exampleServices : List networkService :=
  [{ Name := "A", ServiceInterface := [] }, { Name := "B", ServiceInterface := [] }]

/-- The service `A` with one channel, as the broker lists it. -/
def serviceA : NetworkService :=
  { Metadata := some { Name := "A", Namespace := "default" },
    Channel := [{ Metadata := some { Name := "A-1", Namespace := "default" },
                  Interface := [{ Type_ := 1, Preference := 0 }] }] }

/-- A discovery that returns one service at the first call. -/
def discoveryOfOne : Nat → DiscoveryReply :=
  fun _ => .ok [serviceA]

/-- A discovery that returns, at the first call, one service sent without metadata. -/
def discoveryWithoutMetadata : Nat → DiscoveryReply :=
  fun _ => .ok [{ Metadata := none, Channel := [] }]

/-- The desired service `A` followed by a null entry. -/
def exampleServicesWithNull : List (Option networkService) :=
  [some { Name := "A", ServiceInterface := [] }, none]

/-- What `getNetworkServices` does against `discoveryOfOne`: one call, at the first
tick, and the list of one service. -/
def discoveredOne : DiscResult :=
  { services := [serviceA],
    err := none, calls := [clientConnectionRetry], elapsed := clientConnectionRetry,
    log := [] }

/-- An environment in which every step of `main` before the socket check succeeds, the
flag `-nsm-socket` is not given, and the only path that exists is the built-in default
`/default/nsm.sock`. -/
def exampleEnv : Env :=
  { buildClient := none,
    configMapName := "client-config",
    nsmSocket := none,
    INIT_NAMESPACE := "default",
    HOSTNAME := "pod",
    podUID := .ok "uid-1",
    configMap := .ok [("networkService", "- name: A")],
    decode := fun _ => .ok [some { Name := "A", ServiceInterface := [] }],
    clientSocketPath := "/default/nsm.sock",
    stat := fun path =>
      if path = "/default/nsm.sock" then none else some (.other "no such file or directory"),
    SocketOperationCheck := fun _ => none,
    GetCurrentNS := .ok "ns-1" }

/-- A broker that accepts the first connection request and answers `NotFound` after. -/
def acceptedThenNotFound : Nat → BrokerReply :=
  fun n => if n < 1 then acceptedReply else .fail none (.status .NotFound "no such service")

/-! ## Lemmas on `select` and the tick lists -/

theorem selectCase_of_lt (sched : Nat → Bool) {timeout retry n : Nat}
    (h : (n + 1) * retry < timeout) : selectCase sched timeout retry n = .tick := by
  simp [selectCase, h]

theorem selectCase_of_gt (sched : Nat → Bool) {timeout retry n : Nat}
    (h : timeout < (n + 1) * retry) : selectCase sched timeout retry n = .ctxDone := by
  have h1 : ¬ (n + 1) * retry < timeout := by omega
  simp [selectCase, h, h1]

theorem selectCase_of_eq (sched : Nat → Bool) {timeout retry n : Nat}
    (h : (n + 1) * retry = timeout) :
    selectCase sched timeout retry n = if sched n then .tick else .ctxDone := by
  simp [selectCase, h]

theorem tickCalls_length (retry : Nat) (cReq : ConnectionRequest) (n k : Nat) :
    (tickCalls retry cReq n k).length = k := by
  induction k generalizing n with
  | zero => rfl
  | succ k ih => simp [tickCalls, ih]

theorem tickCalls_snoc (retry : Nat) (cReq : ConnectionRequest) (n k : Nat) :
    tickCalls retry cReq n (k + 1)
      = tickCalls retry cReq n k ++ [{ time := (n + k + 1) * retry, cReq := cReq }] := by
  induction k generalizing n with
  | zero => simp [tickCalls]
  | succ k ih =>
    have e : n + 1 + k = n + (k + 1) := by omega
    rw [tickCalls, ih (n + 1)]
    simp [tickCalls, e]

theorem tickCalls_time (retry : Nat) (cReq : ConnectionRequest) (n k : Nat) :
    (tickCalls retry cReq n k).map Call.time = tickTimes retry n k := by
  induction k generalizing n with
  | zero => rfl
  | succ k ih => simp [tickCalls, tickTimes, ih]

theorem tickCalls_cReq (retry : Nat) (cReq : ConnectionRequest) (n k : Nat) :
    ∀ c ∈ tickCalls retry cReq n k, c.cReq = cReq := by
  induction k generalizing n with
  | zero => simp [tickCalls]
  | succ k ih =>
    intro c hc
    simp only [tickCalls, List.mem_cons] at hc
    rcases hc with rfl | hc
    · rfl
    · exact ih (n + 1) c hc

theorem tickTimes_length (retry n k : Nat) : (tickTimes retry n k).length = k := by
  induction k generalizing n with
  | zero => rfl
  | succ k ih => simp [tickTimes, ih]

theorem tickTimes_snoc (retry n k : Nat) :
    tickTimes retry n (k + 1) = tickTimes retry n k ++ [(n + k + 1) * retry] := by
  induction k generalizing n with
  | zero => simp [tickTimes]
  | succ k ih =>
    have e : n + 1 + k = n + (k + 1) := by omega
    rw [tickTimes, ih (n + 1)]
    simp [tickTimes, e]

theorem tickTimes_eq_map (retry n k : Nat) :
    tickTimes retry n k = (List.range k).map (fun i => (n + i + 1) * retry) := by
  induction k with
  | zero => rfl
  | succ k ih => rw [tickTimes_snoc, ih, List.range_succ, List.map_append]; rfl

/-! ## Lemmas on the classification of one attempt -/

theorem attempt_of_success (retry : Nat) (cReq : ConnectionRequest) {r : BrokerReply}
    (h : Classify r = .Success) :
    requestConnectionAttempt retry cReq r
      = .success (r.cResp.bind ConnectionReply.ConnectionParameters) := by
  cases r with
  | ok c =>
    by_cases hc : c.Accepted = true
    · simp [requestConnectionAttempt, hc, BrokerReply.cResp]
    · simp [Classify, BrokerReply.err, BrokerReply.accepted, BrokerReply.cResp, hc,
        statusCode] at h
  | fail c e =>
    exfalso
    simp only [Classify, BrokerReply.err] at h
    split at h
    · simp_all
    · split at h <;> cases h

theorem attempt_of_permanent (retry : Nat) (cReq : ConnectionRequest) {r : BrokerReply}
    (h : statusCode r.err = .Aborted ∨ statusCode r.err = .NotFound) :
    requestConnectionAttempt retry cReq r = .failure (.connectionFailed r.err) := by
  cases r with
  | ok c => simp [BrokerReply.err, statusCode] at h
  | fail c e =>
    simp only [BrokerReply.err] at h
    rcases h with h | h <;>
      simp [requestConnectionAttempt, requestConnectionSwitch, h, BrokerReply.err]

theorem attempt_of_transient (retry : Nat) (cReq : ConnectionRequest) {r : BrokerReply}
    (h : Classify r = .Transient) :
    ∃ log, requestConnectionAttempt retry cReq r = .again log := by
  cases r with
  | ok c =>
    by_cases hc : c.Accepted = true
    · simp [Classify, BrokerReply.err, BrokerReply.accepted, BrokerReply.cResp, hc] at h
    · simp [requestConnectionAttempt, requestConnectionSwitch, hc, statusCode]
  | fail c e =>
    simp only [Classify, BrokerReply.err] at h
    have h1 : statusCode (some e) ≠ .Aborted := by
      intro h2; simp [h2] at h
    have h2 : statusCode (some e) ≠ .NotFound := by
      intro h3; simp [h3] at h
    simp only [requestConnectionAttempt, requestConnectionSwitch]
    split <;> simp_all

/-! ## Lemmas on the loop of `requestConnection` -/

theorem requestConnectionLoop_again (sched : Nat → Bool) (timeout retry : Nat)
    (replies : Nat → BrokerReply) (cReq : ConnectionRequest) (err : Option GoError)
    (fuel n : Nat) (log : List LogEntry)
    (hs : selectCase sched timeout retry n = .tick)
    (ha : requestConnectionAttempt retry cReq (replies n) = .again log) :
    requestConnectionLoop sched timeout retry replies cReq err (fuel + 1) n
      = (requestConnectionLoop sched timeout retry replies cReq err fuel (n + 1)).map
          (ConnResult.after { time := (n + 1) * retry, cReq := cReq } log) := by
  simp [requestConnectionLoop, hs, ha]

theorem requestConnectionLoop_success (sched : Nat → Bool) (timeout retry : Nat)
    (replies : Nat → BrokerReply) (cReq : ConnectionRequest) (err : Option GoError)
    (fuel n : Nat) (params : Option ConnectionParameters)
    (hs : selectCase sched timeout retry n = .tick)
    (ha : requestConnectionAttempt retry cReq (replies n) = .success params) :
    requestConnectionLoop sched timeout retry replies cReq err (fuel + 1) n
      = some { params := params, err := none,
               calls := [{ time := (n + 1) * retry, cReq := cReq }],
               elapsed := (n + 1) * retry, log := [] } := by
  simp [requestConnectionLoop, hs, ha]

theorem requestConnectionLoop_failure (sched : Nat → Bool) (timeout retry : Nat)
    (replies : Nat → BrokerReply) (cReq : ConnectionRequest) (err : Option GoError)
    (fuel n : Nat) (e : ClientError)
    (hs : selectCase sched timeout retry n = .tick)
    (ha : requestConnectionAttempt retry cReq (replies n) = .failure e) :
    requestConnectionLoop sched timeout retry replies cReq err (fuel + 1) n
      = some { params := none, err := some e,
               calls := [{ time := (n + 1) * retry, cReq := cReq }],
               elapsed := (n + 1) * retry, log := [] } := by
  simp [requestConnectionLoop, hs, ha]

theorem requestConnectionLoop_ctxDone (sched : Nat → Bool) (timeout retry : Nat)
    (replies : Nat → BrokerReply) (cReq : ConnectionRequest) (err : Option GoError)
    (fuel n : Nat) (hs : selectCase sched timeout retry n = .ctxDone) :
    requestConnectionLoop sched timeout retry replies cReq err (fuel + 1) n
      = some { params := none, err := some (.connectionTimeout timeout err),
               calls := [], elapsed := timeout, log := [] } := by
  simp [requestConnectionLoop, hs]

/-- A run of `k` Transient replies at ticks before the deadline: the loop makes the `k`
calls and goes on from tick `n + k`. -/
theorem requestConnectionLoop_transients (sched : Nat → Bool) (timeout retry : Nat)
    (replies : Nat → BrokerReply) (cReq : ConnectionRequest) (err : Option GoError)
    (k : Nat) : ∀ n fuel : Nat,
    (∀ i, i < k → (n + i + 1) * retry < timeout) →
    (∀ i, i < k → Classify (replies (n + i)) = .Transient) →
    ∃ log, requestConnectionLoop sched timeout retry replies cReq err (fuel + k) n
      = (requestConnectionLoop sched timeout retry replies cReq err fuel (n + k)).map
          (ConnResult.afterAll (tickCalls retry cReq n k) log) := by
  induction k with
  | zero =>
    intro n fuel _ _
    refine ⟨[], ?_⟩
    have hid : ConnResult.afterAll (tickCalls retry cReq n 0) [] = id := by
      funext r
      simp [ConnResult.afterAll, tickCalls]
    simp [hid]
  | succ k ih =>
    intro n fuel hticks htrans
    obtain ⟨log0, h0⟩ := attempt_of_transient retry cReq (htrans 0 (Nat.succ_pos k))
    have hs : selectCase sched timeout retry n = .tick :=
      selectCase_of_lt sched (by simpa using hticks 0 (Nat.succ_pos k))
    obtain ⟨log1, h1⟩ := ih (n + 1) fuel
      (fun i hi => by
        have := hticks (i + 1) (Nat.succ_lt_succ hi)
        have e : n + 1 + i + 1 = n + (i + 1) + 1 := by omega
        rw [e]; exact this)
      (fun i hi => by
        have := htrans (i + 1) (Nat.succ_lt_succ hi)
        have e : n + 1 + i = n + (i + 1) := by omega
        rw [e]; exact this)
    refine ⟨log0 ++ log1, ?_⟩
    have e1 : fuel + (k + 1) = (fuel + k) + 1 := by omega
    have e2 : n + 1 + k = n + (k + 1) := by omega
    rw [e1, requestConnectionLoop_again sched timeout retry replies cReq err (fuel + k) n
      log0 hs (by simpa using h0), h1, e2, Option.map_map]
    congr 1
    funext r
    simp [ConnResult.after, ConnResult.afterAll, tickCalls]

/-- The fuel `requestConnectionWith` gives the loop, split for a stop at attempt `j + 1`. -/
theorem fuel_split {timeout retry j : Nat} (hretry : 0 < retry)
    (hticks : (j + 1) * retry < timeout) :
    timeout / retry + 2 = (timeout / retry + 1 - j) + 1 + j := by
  have h : j + 1 ≤ timeout / retry :=
    (Nat.le_div_iff_mul_le hretry).2 (Nat.le_of_lt hticks)
  omega

theorem tick_before {timeout retry j i : Nat} (hticks : (j + 1) * retry < timeout)
    (hi : i < j) : (0 + i + 1) * retry < timeout := by
  have h : (0 + i + 1) * retry ≤ (j + 1) * retry :=
    Nat.mul_le_mul_right retry (by omega)
  omega

/-- Attempts `1 .. j` Transient and attempt `j + 1`, made before the deadline, a success:
the value `requestConnection` returns. -/
theorem requestConnectionWith_success_at (sched : Nat → Bool) (timeout retry : Nat)
    (replies : Nat → BrokerReply) (cReq : ConnectionRequest) (j : Nat)
    (params : Option ConnectionParameters) (hretry : 0 < retry)
    (hticks : (j + 1) * retry < timeout)
    (htrans : ∀ i, i < j → Classify (replies i) = .Transient)
    (ha : requestConnectionAttempt retry cReq (replies j) = .success params) :
    ∃ log, requestConnectionWith sched timeout retry replies cReq
      = some { params := params, err := none, calls := tickCalls retry cReq 0 (j + 1),
               elapsed := (j + 1) * retry, log := log } := by
  obtain ⟨log, h⟩ := requestConnectionLoop_transients sched timeout retry replies cReq none
    j 0 (timeout / retry + 1 - j + 1) (fun i hi => tick_before hticks hi)
    (fun i hi => by simpa using htrans i hi)
  refine ⟨log ++ [], ?_⟩
  have hs : selectCase sched timeout retry (0 + j) = .tick :=
    selectCase_of_lt sched (by simpa using hticks)
  rw [requestConnectionWith, if_neg (Nat.pos_iff_ne_zero.1 hretry), fuel_split hretry hticks,
    h, requestConnectionLoop_success sched timeout retry replies cReq none _ (0 + j) params hs
      (by simpa using ha)]
  simp [ConnResult.afterAll, tickCalls_snoc]

/-- Attempts `1 .. j` Transient and attempt `j + 1`, made before the deadline, ended by
`return nil, fmt.Errorf(...)`: the value `requestConnection` returns. -/
theorem requestConnectionWith_failure_at (sched : Nat → Bool) (timeout retry : Nat)
    (replies : Nat → BrokerReply) (cReq : ConnectionRequest) (j : Nat)
    (e : ClientError) (hretry : 0 < retry)
    (hticks : (j + 1) * retry < timeout)
    (htrans : ∀ i, i < j → Classify (replies i) = .Transient)
    (ha : requestConnectionAttempt retry cReq (replies j) = .failure e) :
    ∃ log, requestConnectionWith sched timeout retry replies cReq
      = some { params := none, err := some e, calls := tickCalls retry cReq 0 (j + 1),
               elapsed := (j + 1) * retry, log := log } := by
  obtain ⟨log, h⟩ := requestConnectionLoop_transients sched timeout retry replies cReq none
    j 0 (timeout / retry + 1 - j + 1) (fun i hi => tick_before hticks hi)
    (fun i hi => by simpa using htrans i hi)
  refine ⟨log ++ [], ?_⟩
  have hs : selectCase sched timeout retry (0 + j) = .tick :=
    selectCase_of_lt sched (by simpa using hticks)
  rw [requestConnectionWith, if_neg (Nat.pos_iff_ne_zero.1 hretry), fuel_split hretry hticks,
    h, requestConnectionLoop_failure sched timeout retry replies cReq none _ (0 + j) e hs
      (by simpa using ha)]
  simp [ConnResult.afterAll, tickCalls_snoc]

/-- The number of ticks strictly before the deadline is `(timeout - 1) / retry`. -/
theorem tick_lt_iff {timeout retry : Nat} (hretry : 0 < retry) (n : Nat) :
    (n + 1) * retry < timeout ↔ n < (timeout - 1) / retry := by
  have h : n + 1 ≤ (timeout - 1) / retry ↔ (n + 1) * retry ≤ timeout - 1 :=
    Nat.le_div_iff_mul_le hretry
  have h0 : 0 < (n + 1) * retry := Nat.mul_pos (Nat.succ_pos n) hretry
  constructor
  · intro hlt; exact h.2 (by omega)
  · intro hlt
    have := h.1 hlt
    omega

/-- The fuel `requestConnectionWith` gives the loop, split for a stop at the deadline. -/
theorem fuel_split_deadline (timeout retry : Nat) :
    timeout / retry + 2
      = (timeout / retry - (timeout - 1) / retry) + 1 + 1 + (timeout - 1) / retry := by
  have h : (timeout - 1) / retry ≤ timeout / retry := Nat.div_le_div_right (by omega)
  omega

/-- Only Transient replies: `requestConnection` calls the broker at every tick strictly
before the deadline, once more at a tick that falls on the deadline if the `select` takes
the tick there, and returns the timeout error. -/
theorem requestConnectionWith_all_transient (sched : Nat → Bool) (timeout retry : Nat)
    (replies : Nat → BrokerReply) (cReq : ConnectionRequest) (hretry : 0 < retry)
    (htrans : ∀ n, Classify (replies n) = .Transient) :
    ∃ log, requestConnectionWith sched timeout retry replies cReq
      = some { params := none, err := some (.connectionTimeout timeout none),
               calls := tickCalls retry cReq 0 ((timeout - 1) / retry)
                 ++ (if ((timeout - 1) / retry + 1) * retry = timeout
                        ∧ sched ((timeout - 1) / retry) = true
                     then [{ time := timeout, cReq := cReq }] else []),
               elapsed := timeout, log := log } := by
  obtain ⟨log, h⟩ := requestConnectionLoop_transients sched timeout retry replies cReq none
    ((timeout - 1) / retry) 0 (timeout / retry - (timeout - 1) / retry + 1 + 1)
    (fun i hi => (tick_lt_iff hretry (0 + i)).2 (by simpa using hi))
    (fun i _ => htrans (0 + i))
  have hge : ¬ ((timeout - 1) / retry + 1) * retry < timeout := by
    intro hlt
    exact Nat.lt_irrefl _ ((tick_lt_iff hretry _).1 hlt)
  rw [requestConnectionWith, if_neg (Nat.pos_iff_ne_zero.1 hretry),
    fuel_split_deadline timeout retry, h]
  simp only [Nat.zero_add]
  by_cases heq : ((timeout - 1) / retry + 1) * retry = timeout
  · cases hsched : sched ((timeout - 1) / retry) with
    | false =>
      refine ⟨log ++ [], ?_⟩
      rw [requestConnectionLoop_ctxDone sched timeout retry replies cReq none _ _
        (by rw [selectCase_of_eq sched heq, hsched]; rfl)]
      simp [ConnResult.afterAll, heq, hsched]
    | true =>
      obtain ⟨log1, h1⟩ := attempt_of_transient retry cReq (htrans ((timeout - 1) / retry))
      refine ⟨log ++ (log1 ++ []), ?_⟩
      rw [requestConnectionLoop_again sched timeout retry replies cReq none _ _ log1
        (by rw [selectCase_of_eq sched heq, hsched]; rfl) h1,
        requestConnectionLoop_ctxDone sched timeout retry replies cReq none _ _
        (selectCase_of_gt sched (by
          have e : ((timeout - 1) / retry + 1 + 1) * retry
              = ((timeout - 1) / retry + 1) * retry + retry := by ring
          omega))]
      simp [ConnResult.afterAll, ConnResult.after, heq, hsched]
  · refine ⟨log ++ [], ?_⟩
    rw [requestConnectionLoop_ctxDone sched timeout retry replies cReq none _ _
      (selectCase_of_gt sched (by omega))]
    simp [ConnResult.afterAll, heq]

/-! ## Lemmas on the loop of `getNetworkServices` -/

theorem getNetworkServicesLoop_fail (sched : Nat → Bool) (timeout retry : Nat)
    (replies : Nat → DiscoveryReply) (err : Option GoError) (fuel n : Nat) (e : GoError)
    (hs : selectCase sched timeout retry n = .tick) (ha : replies n = .fail e) :
    getNetworkServicesLoop sched timeout retry replies err (fuel + 1) n
      = (getNetworkServicesLoop sched timeout retry replies err fuel (n + 1)).map
          (DiscResult.after ((n + 1) * retry) [.discoveryFailed e retry]) := by
  simp [getNetworkServicesLoop, hs, ha]

theorem getNetworkServicesLoop_ok (sched : Nat → Bool) (timeout retry : Nat)
    (replies : Nat → DiscoveryReply) (err : Option GoError) (fuel n : Nat)
    (services : List NetworkService)
    (hs : selectCase sched timeout retry n = .tick) (ha : replies n = .ok services) :
    getNetworkServicesLoop sched timeout retry replies err (fuel + 1) n
      = some { services := services, err := none, calls := [(n + 1) * retry],
               elapsed := (n + 1) * retry, log := [] } := by
  simp [getNetworkServicesLoop, hs, ha]

theorem getNetworkServicesLoop_ctxDone (sched : Nat → Bool) (timeout retry : Nat)
    (replies : Nat → DiscoveryReply) (err : Option GoError) (fuel n : Nat)
    (hs : selectCase sched timeout retry n = .ctxDone) :
    getNetworkServicesLoop sched timeout retry replies err (fuel + 1) n
      = some { services := [], err := some (.discoveryTimeout timeout err),
               calls := [], elapsed := timeout, log := [] } := by
  simp [getNetworkServicesLoop, hs]

/-- A run of `k` failed replies at ticks before the deadline: the loop makes the `k`
calls and goes on from tick `n + k`. -/
theorem getNetworkServicesLoop_fails (sched : Nat → Bool) (timeout retry : Nat)
    (replies : Nat → DiscoveryReply) (err : Option GoError)
    (k : Nat) : ∀ n fuel : Nat,
    (∀ i, i < k → (n + i + 1) * retry < timeout) →
    (∀ i, i < k → ∃ e, replies (n + i) = .fail e) →
    ∃ log, getNetworkServicesLoop sched timeout retry replies err (fuel + k) n
      = (getNetworkServicesLoop sched timeout retry replies err fuel (n + k)).map
          (DiscResult.afterAll (tickTimes retry n k) log) := by
  induction k with
  | zero =>
    intro n fuel _ _
    refine ⟨[], ?_⟩
    have hid : DiscResult.afterAll (tickTimes retry n 0) [] = id := by
      funext r
      simp [DiscResult.afterAll, tickTimes]
    simp [hid]
  | succ k ih =>
    intro n fuel hticks hfail
    obtain ⟨e0, h0⟩ := hfail 0 (Nat.succ_pos k)
    have hs : selectCase sched timeout retry n = .tick :=
      selectCase_of_lt sched (by simpa using hticks 0 (Nat.succ_pos k))
    obtain ⟨log1, h1⟩ := ih (n + 1) fuel
      (fun i hi => by
        have := hticks (i + 1) (Nat.succ_lt_succ hi)
        have e : n + 1 + i + 1 = n + (i + 1) + 1 := by omega
        rw [e]; exact this)
      (fun i hi => by
        have := hfail (i + 1) (Nat.succ_lt_succ hi)
        have e : n + 1 + i = n + (i + 1) := by omega
        rw [e]; exact this)
    refine ⟨[.discoveryFailed e0 retry] ++ log1, ?_⟩
    have e1 : fuel + (k + 1) = (fuel + k) + 1 := by omega
    have e2 : n + 1 + k = n + (k + 1) := by omega
    rw [e1, getNetworkServicesLoop_fail sched timeout retry replies err (fuel + k) n e0 hs
      (by simpa using h0), h1, e2, Option.map_map]
    congr 1

/-- Attempts `1 .. j` failed and attempt `j + 1`, made before the deadline, answered with
a service list: the value `getNetworkServices` returns. -/
theorem getNetworkServicesWith_ok_at (sched : Nat → Bool) (timeout retry : Nat)
    (replies : Nat → DiscoveryReply) (j : Nat) (services : List NetworkService)
    (hretry : 0 < retry) (hticks : (j + 1) * retry < timeout)
    (hfail : ∀ i, i < j → ∃ e, replies i = .fail e)
    (ha : replies j = .ok services) :
    ∃ log, getNetworkServicesWith sched timeout retry replies
      = some { services := services, err := none, calls := tickTimes retry 0 (j + 1),
               elapsed := (j + 1) * retry, log := log } := by
  obtain ⟨log, h⟩ := getNetworkServicesLoop_fails sched timeout retry replies none
    j 0 (timeout / retry + 1 - j + 1) (fun i hi => tick_before hticks hi)
    (fun i hi => by simpa using hfail i hi)
  refine ⟨log ++ [], ?_⟩
  have hs : selectCase sched timeout retry (0 + j) = .tick :=
    selectCase_of_lt sched (by simpa using hticks)
  rw [getNetworkServicesWith, if_neg (Nat.pos_iff_ne_zero.1 hretry), fuel_split hretry hticks,
    h, getNetworkServicesLoop_ok sched timeout retry replies none _ (0 + j) services hs
      (by simpa using ha)]
  simp [DiscResult.afterAll, tickTimes_snoc]

/-! ## Properties of the two wait loops -/

theorem classify_success_iff (r : BrokerReply) :
    Classify r = .Success ↔ (r.err = none ∧ r.accepted = true) := by
  unfold Classify
  split
  · simp_all
  · split <;> simp_all

theorem classify_permanent_iff (r : BrokerReply) :
    Classify r = .Permanent
      ↔ (statusCode r.err = .Aborted ∨ statusCode r.err = .NotFound) := by
  unfold Classify
  split
  · rename_i h
    simp [h.1, statusCode]
  · split <;> simp_all

/-- C1: the body of the tick branch of `requestConnection` classifies every broker reply
by the decision table: it returns the reply's ConnectionParameters with a nil error
exactly when the error is nil and Accepted is true, it returns an error exactly when the
status code is Aborted or NotFound, and it goes on looping in exactly the other cases. -/
theorem requestConnectionAttempt_decision_table (retry : Nat) (cReq : ConnectionRequest)
    (r : BrokerReply) :
    ((r.err = none ∧ r.accepted = true)
      ↔ requestConnectionAttempt retry cReq r
          = .success (r.cResp.bind ConnectionReply.ConnectionParameters)) ∧
    ((r.err = none ∧ r.accepted = true)
      ↔ ∃ params, requestConnectionAttempt retry cReq r = .success params) ∧
    ((statusCode r.err = .Aborted ∨ statusCode r.err = .NotFound)
      ↔ ∃ e, requestConnectionAttempt retry cReq r = .failure e) ∧
    ((¬ (r.err = none ∧ r.accepted = true)
        ∧ ¬ (statusCode r.err = .Aborted ∨ statusCode r.err = .NotFound))
      ↔ ∃ log, requestConnectionAttempt retry cReq r = .again log) := by
  have hs := classify_success_iff r
  have hp := classify_permanent_iff r
  cases hc : Classify r with
  | Success =>
    have h1 := hs.1 hc
    have h2 : ¬ (statusCode r.err = .Aborted ∨ statusCode r.err = .NotFound) := by
      rw [← hp, hc]; simp
    have ha := attempt_of_success retry cReq hc
    simp [ha, h1, h2, statusCode]
  | Permanent =>
    have h1 := hp.1 hc
    have h2 : ¬ (r.err = none ∧ r.accepted = true) := by
      rw [← hs, hc]; simp
    have ha := attempt_of_permanent retry cReq h1
    simp [ha, h1, h2]
  | Transient =>
    have h1 : ¬ (statusCode r.err = .Aborted ∨ statusCode r.err = .NotFound) := by
      rw [← hp, hc]; simp
    have h2 : ¬ (r.err = none ∧ r.accepted = true) := by
      rw [← hs, hc]; simp
    obtain ⟨log, ha⟩ := attempt_of_transient retry cReq hc
    simp [ha, h1, h2]

/-- C2: when attempts 1 to k-1 are Transient and attempt k, made at a tick before the
deadline, carries the status code Aborted or NotFound, `requestConnection` makes exactly
k broker calls and returns a non-nil error and no connection parameters. -/
theorem requestConnection_permanent_stops (sched : Nat → Bool) (timeout retry : Nat)
    (replies : Nat → BrokerReply) (cReq : ConnectionRequest) (k : Nat)
    (hretry : 0 < retry) (hk : 0 < k) (hticks : k * retry < timeout)
    (htrans : ∀ i, i < k - 1 → Classify (replies i) = .Transient)
    (hperm : statusCode (replies (k - 1)).err = .Aborted
      ∨ statusCode (replies (k - 1)).err = .NotFound) :
    ∃ r, requestConnectionWith sched timeout retry replies cReq = some r
      ∧ r.calls.length = k ∧ r.err ≠ none ∧ r.params = none := by
  obtain ⟨j, rfl⟩ : ∃ j, k = j + 1 := ⟨k - 1, by omega⟩
  obtain ⟨log, h⟩ := requestConnectionWith_failure_at sched timeout retry replies cReq j
    _ hretry hticks (by simpa using htrans) (attempt_of_permanent retry cReq hperm)
  exact ⟨_, h, by simp [tickCalls_length], by simp, rfl⟩

/-- C2 (witness): with the constants of the source, AlreadyExists on the first attempt
and Aborted on the second give two calls and an error. -/
theorem requestConnection_permanent_stops_witness :
    0 < clientConnectionRetry ∧ 0 < 2 ∧ 2 * clientConnectionRetry < clientConnectionTimeout
      ∧ (∀ i, i < 2 - 1 → Classify (abortedOnSecond i) = .Transient)
      ∧ (statusCode (abortedOnSecond (2 - 1)).err = .Aborted
          ∨ statusCode (abortedOnSecond (2 - 1)).err = .NotFound)
      ∧ ∃ r, requestConnectionWith (fun _ => true) clientConnectionTimeout
            clientConnectionRetry abortedOnSecond exampleRequest = some r
          ∧ r.calls.length = 2 ∧ r.err ≠ none ∧ r.params = none :=
  ⟨by decide, by decide, by decide, by decide, by decide,
    requestConnection_permanent_stops (fun _ => true) clientConnectionTimeout
      clientConnectionRetry abortedOnSecond exampleRequest 2
      (by decide) (by decide) (by decide) (by decide) (by decide)⟩

/-- C3 (the code at a failing input): against a broker that returns an error at every
call, the timeout error of either wait loop holds no error at all, not the last one the
broker returned. -/
theorem timeout_error_holds_no_last_error :
    (getNetworkServices (fun _ => true) discoveryDown).map (fun r => (r.calls.length, r.err))
        = some (30, some (.discoveryTimeout clientConnectionTimeout none))
      ∧ (requestConnection (fun _ => true) connectionDown exampleRequest).map
            (fun r => (r.calls.length, r.err))
          = some (30, some (.connectionTimeout clientConnectionTimeout none)) := by
  constructor <;> decide

theorem occursIn_error_text (lead a needle b c : String) :
    occursIn needle (lead ++ (a ++ needle ++ b ++ c)) := by
  refine ⟨lead.data ++ a.data, b.data ++ c.data, ?_⟩
  simp [List.append_assoc]

/-- C4: when `requestConnection` stops on a reply of the client stub whose status code is
Aborted or NotFound, the error it returns is built from the broker error of that reply,
its text holds the name of that error's code, and it holds the AdmissionError diagnostic
of every reply message that came with that reply. -/
theorem requestConnection_permanent_error (sched : Nat → Bool) (timeout retry : Nat)
    (replies : Nat → BrokerReply) (cReq : ConnectionRequest) (k : Nat)
    (hretry : 0 < retry) (hk : 0 < k) (hticks : k * retry < timeout)
    (htrans : ∀ i, i < k - 1 → Classify (replies i) = .Transient)
    (hperm : statusCode (replies (k - 1)).err = .Aborted
      ∨ statusCode (replies (k - 1)).err = .NotFound)
    (hclient : (replies (k - 1)).fromClient) :
    ∃ r e, requestConnectionWith sched timeout retry replies cReq = some r
      ∧ r.err = some e
      ∧ e = .connectionFailed (replies (k - 1)).err
      ∧ occursIn (statusCode (replies (k - 1)).err).name e.Error
      ∧ ∀ c, (replies (k - 1)).cResp = some c → occursIn c.AdmissionError e.Error := by
  obtain ⟨j, rfl⟩ : ∃ j, k = j + 1 := ⟨k - 1, by omega⟩
  obtain ⟨log, h⟩ := requestConnectionWith_failure_at sched timeout retry replies cReq j
    _ hretry hticks (by simpa using htrans) (attempt_of_permanent retry cReq hperm)
  refine ⟨_, _, h, rfl, rfl, ?_, ?_⟩
  · simp only [Nat.add_sub_cancel] at hperm ⊢
    cases hr : replies j with
    | ok c => simp [hr, BrokerReply.err, statusCode] at hperm
    | fail c e =>
      cases e with
      | status code desc =>
        simp only [BrokerReply.err, statusCode, ClientError.Error, fmtError, GoError.Error]
        exact occursIn_error_text _ _ _ _ _
      | other text => simp [hr, BrokerReply.err, statusCode] at hperm
  · intro c hc
    have hne : (replies (j + 1 - 1)).err ≠ none := by
      intro h0
      rw [h0] at hperm
      simp [statusCode] at hperm
    rw [hclient hne] at hc
    cases hc

/-- C4 (witness): with the constants of the source, AlreadyExists on the first attempt
and Aborted, without a reply message, on the second. -/
theorem requestConnection_permanent_error_witness :
    0 < clientConnectionRetry ∧ 0 < 2 ∧ 2 * clientConnectionRetry < clientConnectionTimeout
      ∧ (∀ i, i < 2 - 1 → Classify (abortedOnSecond i) = .Transient)
      ∧ (statusCode (abortedOnSecond (2 - 1)).err = .Aborted
          ∨ statusCode (abortedOnSecond (2 - 1)).err = .NotFound)
      ∧ (abortedOnSecond (2 - 1)).fromClient
      ∧ ∃ r e, requestConnectionWith (fun _ => true) clientConnectionTimeout
            clientConnectionRetry abortedOnSecond exampleRequest = some r
          ∧ r.err = some e
          ∧ e = .connectionFailed (abortedOnSecond (2 - 1)).err
          ∧ occursIn (statusCode (abortedOnSecond (2 - 1)).err).name e.Error
          ∧ ∀ c, (abortedOnSecond (2 - 1)).cResp = some c
              → occursIn c.AdmissionError e.Error :=
  ⟨by decide, by decide, by decide, by decide, by decide, by decide,
    requestConnection_permanent_error (fun _ => true) clientConnectionTimeout
      clientConnectionRetry abortedOnSecond exampleRequest 2
      (by decide) (by decide) (by decide) (by decide) (by decide) (by decide)⟩

theorem discovery_fail_of_err {r : DiscoveryReply} (h : r.err ≠ none) :
    ∃ e, r = .fail e := by
  cases r with
  | ok l => simp [DiscoveryReply.err] at h
  | fail e => exact ⟨e, rfl⟩

/-- C5: when discovery attempts 1 to k-1 fail and attempt k, made at a tick before the
deadline, succeeds with the list L, `getNetworkServices` makes exactly k broker calls and
returns L with a nil error, whatever L is, the empty list included. -/
theorem getNetworkServices_returns_list (sched : Nat → Bool) (timeout retry : Nat)
    (replies : Nat → DiscoveryReply) (k : Nat) (L : List NetworkService)
    (hretry : 0 < retry) (hk : 0 < k) (hticks : k * retry < timeout)
    (hfail : ∀ i, i < k - 1 → (replies i).err ≠ none)
    (hok : replies (k - 1) = .ok L) :
    ∃ r, getNetworkServicesWith sched timeout retry replies = some r
      ∧ r.calls.length = k ∧ r.services = L ∧ r.err = none := by
  obtain ⟨j, rfl⟩ : ∃ j, k = j + 1 := ⟨k - 1, by omega⟩
  obtain ⟨log, h⟩ := getNetworkServicesWith_ok_at sched timeout retry replies j L
    hretry hticks (fun i hi => discovery_fail_of_err (hfail i (by simpa using hi)))
    (by simpa using hok)
  exact ⟨_, h, by simp [tickTimes_length], rfl, rfl⟩

/-- C5 (witness): with the constants of the source, a discovery that fails once and then
returns the empty list gives two calls and the empty list with a nil error. -/
theorem getNetworkServices_returns_list_witness :
    0 < clientConnectionRetry ∧ 0 < 2 ∧ 2 * clientConnectionRetry < clientConnectionTimeout
      ∧ (∀ i, i < 2 - 1 → (discoveryEmptyOnSecond i).err ≠ none)
      ∧ discoveryEmptyOnSecond (2 - 1) = .ok []
      ∧ ∃ r, getNetworkServicesWith (fun _ => true) clientConnectionTimeout
            clientConnectionRetry discoveryEmptyOnSecond = some r
          ∧ r.calls.length = 2 ∧ r.services = [] ∧ r.err = none :=
  ⟨by decide, by decide, by decide, by decide, by decide,
    getNetworkServices_returns_list (fun _ => true) clientConnectionTimeout
      clientConnectionRetry discoveryEmptyOnSecond 2 []
      (by decide) (by decide) (by decide) (by decide) (by decide)⟩

/-- C7 (counterexample): deadline 6, interval 2, a broker that always answers
AlreadyExists, and a `select` that takes the deadline when the third tick falls on it:
two attempts are made, at 2 and 4, and none at 6. -/
theorem deadline_six_two_attempts :
    (∀ n, Classify (alwaysAlreadyExists n) = .Transient)
      ∧ (requestConnectionWith (fun _ => false) 6 2 alwaysAlreadyExists exampleRequest).map
            (fun r => (r.calls.map Call.time, r.err))
          = some ([2, 4], some (.connectionTimeout 6 none))
      ∧ (requestConnectionWith (fun _ => false) 6 2 alwaysAlreadyExists exampleRequest).map
            (fun r => r.calls.length) ≠ some 3 :=
  ⟨fun _ => rfl, by decide, by decide⟩

/-- C7 (amended): against a broker that answers every attempt with a Transient reply,
`requestConnection` makes one attempt at every tick strictly before the deadline (these
are the ticks 1 to (timeout - 1) / retry), one more at a tick that falls on the deadline
only if the `select` takes the tick there, and no other; it then returns the timeout
error at the deadline. -/
theorem requestConnection_timeout_attempts (sched : Nat → Bool) (timeout retry : Nat)
    (replies : Nat → BrokerReply) (cReq : ConnectionRequest) (hretry : 0 < retry)
    (htrans : ∀ n, Classify (replies n) = .Transient) :
    ∃ r, requestConnectionWith sched timeout retry replies cReq = some r
      ∧ r.params = none
      ∧ (∃ e, r.err = some (.connectionTimeout timeout e))
      ∧ r.elapsed = timeout
      ∧ r.calls.map Call.time
          = (List.range ((timeout - 1) / retry)).map (fun i => (i + 1) * retry)
            ++ (if ((timeout - 1) / retry + 1) * retry = timeout
                  ∧ sched ((timeout - 1) / retry) = true
                then [timeout] else [])
      ∧ (∀ n, (n + 1) * retry < timeout ↔ n < (timeout - 1) / retry) := by
  obtain ⟨log, h⟩ := requestConnectionWith_all_transient sched timeout retry replies cReq
    hretry htrans
  refine ⟨_, h, rfl, ⟨_, rfl⟩, rfl, ?_, fun n => tick_lt_iff hretry n⟩
  simp only [List.map_append, tickCalls_time, tickTimes_eq_map, Nat.zero_add]
  congr 1
  split <;> rfl

/-- C7 (witness): deadline 6, interval 2, a broker that always answers AlreadyExists and
a `select` that takes the tick when it falls on the deadline. -/
theorem requestConnection_timeout_attempts_witness :
    0 < 2 ∧ (∀ n, Classify (alwaysAlreadyExists n) = .Transient)
      ∧ ∃ r, requestConnectionWith (fun _ => true) 6 2 alwaysAlreadyExists exampleRequest
            = some r
          ∧ r.params = none
          ∧ (∃ e, r.err = some (.connectionTimeout 6 e))
          ∧ r.elapsed = 6
          ∧ r.calls.map Call.time
              = (List.range ((6 - 1) / 2)).map (fun i => (i + 1) * 2)
                ++ (if ((6 - 1) / 2 + 1) * 2 = 6 ∧ (fun _ => true) ((6 - 1) / 2) = true
                    then [6] else [])
          ∧ (∀ n, (n + 1) * 2 < 6 ↔ n < (6 - 1) / 2) :=
  ⟨by decide, fun _ => rfl,
    requestConnection_timeout_attempts (fun _ => true) 6 2 alwaysAlreadyExists
      exampleRequest (by decide) (fun _ => rfl)⟩

/-- C8 (counterexample): with the constants of the source, a broker that answers
AlreadyExists twice and then accepts is answered with success after three intervals, not
two, which is outside the interval from two to three intervals; a discovery that succeeds
at once returns after one interval, outside the interval from zero to one; and a broker
that answers Aborted and would accept the second attempt gets no second attempt. -/
theorem success_elapsed_outside_interval :
    (requestConnection (fun _ => true) acceptedOnThird exampleRequest).map
          (fun r => (r.err, r.elapsed))
        = some (none, 3 * clientConnectionRetry)
      ∧ ¬ ((3 - 1) * clientConnectionRetry ≤ 3 * clientConnectionRetry
            ∧ 3 * clientConnectionRetry < 3 * clientConnectionRetry)
      ∧ 3 * clientConnectionRetry ≠ 2 * clientConnectionRetry
      ∧ (getNetworkServices (fun _ => true) (fun _ => .ok [])).map
            (fun r => (r.err, r.elapsed))
          = some (none, 1 * clientConnectionRetry)
      ∧ ¬ ((1 - 1) * clientConnectionRetry ≤ 1 * clientConnectionRetry
            ∧ 1 * clientConnectionRetry < 1 * clientConnectionRetry)
      ∧ Classify (abortedThenAccepted 1) = .Success
      ∧ (requestConnection (fun _ => true) abortedThenAccepted exampleRequest).map
            (fun r => (r.calls.length, r.params, r.err))
          = some (1, none, some (.connectionFailed (some (.status .Aborted "rejected")))) :=
  ⟨by decide, by decide, by decide, by decide, by decide, by decide, by decide⟩

/-- C8 (amended): in both wait loops, when the attempts before attempt k fail (for
`requestConnection`: are Transient) and attempt k, made at a tick before the deadline,
succeeds, the loop returns that success at elapsed time exactly k intervals. -/
theorem success_elapsed_k_intervals (sched : Nat → Bool) (timeout retry : Nat)
    (discoveries : Nat → DiscoveryReply) (replies : Nat → BrokerReply)
    (cReq : ConnectionRequest) (k : Nat) (L : List NetworkService)
    (hretry : 0 < retry) (hk : 0 < k) (hticks : k * retry < timeout)
    (hfail : ∀ i, i < k - 1 → (discoveries i).err ≠ none)
    (hok : discoveries (k - 1) = .ok L)
    (htrans : ∀ i, i < k - 1 → Classify (replies i) = .Transient)
    (hsucc : Classify (replies (k - 1)) = .Success) :
    (∃ d, getNetworkServicesWith sched timeout retry discoveries = some d
      ∧ d.services = L ∧ d.err = none ∧ d.elapsed = k * retry)
    ∧ (∃ r, requestConnectionWith sched timeout retry replies cReq = some r
      ∧ r.params = (replies (k - 1)).cResp.bind ConnectionReply.ConnectionParameters
      ∧ r.err = none ∧ r.elapsed = k * retry) := by
  obtain ⟨j, rfl⟩ : ∃ j, k = j + 1 := ⟨k - 1, by omega⟩
  obtain ⟨logd, hd⟩ := getNetworkServicesWith_ok_at sched timeout retry discoveries j L
    hretry hticks (fun i hi => discovery_fail_of_err (hfail i (by simpa using hi)))
    (by simpa using hok)
  obtain ⟨logr, hr⟩ := requestConnectionWith_success_at sched timeout retry replies cReq j
    _ hretry hticks (by simpa using htrans) (attempt_of_success retry cReq hsucc)
  exact ⟨⟨_, hd, rfl, rfl, rfl⟩, ⟨_, hr, rfl, rfl, rfl⟩⟩

/-- C8 (witness): with the constants of the source, two failed attempts and a success on
the third, in both loops, give a success after three intervals. -/
theorem success_elapsed_k_intervals_witness :
    0 < clientConnectionRetry ∧ 0 < 3 ∧ 3 * clientConnectionRetry < clientConnectionTimeout
      ∧ (∀ i, i < 3 - 1 → (discoveryOnThird i).err ≠ none)
      ∧ discoveryOnThird (3 - 1) = .ok []
      ∧ (∀ i, i < 3 - 1 → Classify (acceptedOnThird i) = .Transient)
      ∧ Classify (acceptedOnThird (3 - 1)) = .Success
      ∧ (∃ d, getNetworkServicesWith (fun _ => true) clientConnectionTimeout
            clientConnectionRetry discoveryOnThird = some d
          ∧ d.services = [] ∧ d.err = none ∧ d.elapsed = 3 * clientConnectionRetry)
      ∧ (∃ r, requestConnectionWith (fun _ => true) clientConnectionTimeout
            clientConnectionRetry acceptedOnThird exampleRequest = some r
          ∧ r.params
              = (acceptedOnThird (3 - 1)).cResp.bind ConnectionReply.ConnectionParameters
          ∧ r.err = none ∧ r.elapsed = 3 * clientConnectionRetry) :=
  ⟨by decide, by decide, by decide, by decide, by decide, by decide, by decide,
    success_elapsed_k_intervals (fun _ => true) clientConnectionTimeout
      clientConnectionRetry discoveryOnThird acceptedOnThird exampleRequest 3 []
      (by decide) (by decide) (by decide) (by decide) (by decide) (by decide) (by decide)⟩

/-! ## Lemmas on every run of `requestConnection` -/

theorem selectCase_tick_le {sched : Nat → Bool} {timeout retry n : Nat}
    (h : selectCase sched timeout retry n = .tick) : (n + 1) * retry ≤ timeout := by
  by_contra hgt
  rw [selectCase_of_gt sched (by omega)] at h
  cases h

/-- Every call the loop makes carries the request the loop was given. -/
theorem requestConnectionLoop_calls (sched : Nat → Bool) (timeout retry : Nat)
    (replies : Nat → BrokerReply) (cReq : ConnectionRequest) (err : Option GoError) :
    ∀ (fuel n : Nat) (r : ConnResult),
      requestConnectionLoop sched timeout retry replies cReq err fuel n = some r →
      ∀ c ∈ r.calls, c.cReq = cReq := by
  intro fuel
  induction fuel with
  | zero => intro n r h; simp [requestConnectionLoop] at h
  | succ fuel ih =>
    intro n r h c hc
    cases hs : selectCase sched timeout retry n with
    | ctxDone =>
      rw [requestConnectionLoop_ctxDone sched timeout retry replies cReq err fuel n hs] at h
      cases h
      simp at hc
    | tick =>
      cases ha : requestConnectionAttempt retry cReq (replies n) with
      | success params =>
        rw [requestConnectionLoop_success sched timeout retry replies cReq err fuel n
          params hs ha] at h
        cases h
        simp only [List.mem_singleton] at hc
        rw [hc]
      | failure e =>
        rw [requestConnectionLoop_failure sched timeout retry replies cReq err fuel n
          e hs ha] at h
        cases h
        simp only [List.mem_singleton] at hc
        rw [hc]
      | again log =>
        rw [requestConnectionLoop_again sched timeout retry replies cReq err fuel n
          log hs ha] at h
        obtain ⟨r1, h1, rfl⟩ := Option.map_eq_some'.1 h
        simp only [ConnResult.after, List.mem_cons] at hc
        rcases hc with rfl | hc
        · rfl
        · exact ih (n + 1) r1 h1 c hc

theorem requestConnectionWith_calls (sched : Nat → Bool) (timeout retry : Nat)
    (replies : Nat → BrokerReply) (cReq : ConnectionRequest) (r : ConnResult)
    (h : requestConnectionWith sched timeout retry replies cReq = some r) :
    ∀ c ∈ r.calls, c.cReq = cReq := by
  unfold requestConnectionWith at h
  split at h
  · cases h
  · exact requestConnectionLoop_calls sched timeout retry replies cReq none _ 0 r h

/-- With a positive interval the fuel is enough: the loop reaches a `return`. -/
theorem requestConnectionLoop_returns (sched : Nat → Bool) (timeout retry : Nat)
    (replies : Nat → BrokerReply) (cReq : ConnectionRequest) (err : Option GoError)
    (hretry : 0 < retry) :
    ∀ fuel n : Nat, timeout / retry < fuel + n → 0 < fuel →
      ∃ r, requestConnectionLoop sched timeout retry replies cReq err fuel n = some r := by
  intro fuel
  induction fuel with
  | zero => intro n _ h; omega
  | succ fuel ih =>
    intro n hfuel _
    cases hs : selectCase sched timeout retry n with
    | ctxDone =>
      exact ⟨_, requestConnectionLoop_ctxDone sched timeout retry replies cReq err fuel n hs⟩
    | tick =>
      cases ha : requestConnectionAttempt retry cReq (replies n) with
      | success params =>
        exact ⟨_, requestConnectionLoop_success sched timeout retry replies cReq err fuel n
          params hs ha⟩
      | failure e =>
        exact ⟨_, requestConnectionLoop_failure sched timeout retry replies cReq err fuel n
          e hs ha⟩
      | again log =>
        have hle : n + 1 ≤ timeout / retry :=
          (Nat.le_div_iff_mul_le hretry).2 (selectCase_tick_le hs)
        obtain ⟨r1, h1⟩ := ih (n + 1) (by omega) (by omega)
        exact ⟨_, by
          rw [requestConnectionLoop_again sched timeout retry replies cReq err fuel n
            log hs ha, h1]; rfl⟩

theorem clientConnectionRetry_pos : 0 < clientConnectionRetry := by decide

/-- The function `requestConnection` of the source always returns. -/
theorem requestConnection_terminates (sched : Nat → Bool) (replies : Nat → BrokerReply)
    (cReq : ConnectionRequest) : ∃ r, requestConnection sched replies cReq = some r := by
  unfold requestConnection requestConnectionWith
  rw [if_neg (Nat.pos_iff_ne_zero.1 clientConnectionRetry_pos)]
  exact requestConnectionLoop_returns sched _ _ replies cReq none clientConnectionRetry_pos
    _ 0 (by simp) (Nat.succ_pos _)

/-! ## Lemmas on the loops of `main` -/

/-- With a positive interval the fuel is enough: the loop reaches a `return`. -/
theorem getNetworkServicesLoop_returns (sched : Nat → Bool) (timeout retry : Nat)
    (replies : Nat → DiscoveryReply) (err : Option GoError) (hretry : 0 < retry) :
    ∀ fuel n : Nat, timeout / retry < fuel + n → 0 < fuel →
      ∃ r, getNetworkServicesLoop sched timeout retry replies err fuel n = some r := by
  intro fuel
  induction fuel with
  | zero => intro n _ h; omega
  | succ fuel ih =>
    intro n hfuel _
    cases hs : selectCase sched timeout retry n with
    | ctxDone =>
      exact ⟨_, getNetworkServicesLoop_ctxDone sched timeout retry replies err fuel n hs⟩
    | tick =>
      cases ha : replies n with
      | ok services =>
        exact ⟨_, getNetworkServicesLoop_ok sched timeout retry replies err fuel n
          services hs ha⟩
      | fail e =>
        have hle : n + 1 ≤ timeout / retry :=
          (Nat.le_div_iff_mul_le hretry).2 (selectCase_tick_le hs)
        obtain ⟨r1, h1⟩ := ih (n + 1) (by omega) (by omega)
        exact ⟨_, by
          rw [getNetworkServicesLoop_fail sched timeout retry replies err fuel n e hs ha,
            h1]; rfl⟩

/-- The function `getNetworkServices` of the source always returns. -/
theorem getNetworkServices_terminates (sched : Nat → Bool) (replies : Nat → DiscoveryReply) :
    ∃ r, getNetworkServices sched replies = some r := by
  unfold getNetworkServices getNetworkServicesWith
  rw [if_neg (Nat.pos_iff_ne_zero.1 clientConnectionRetry_pos)]
  exact getNetworkServicesLoop_returns sched _ _ replies none clientConnectionRetry_pos
    _ 0 (by simp) (Nat.succ_pos _)

theorem logChannels_of_metadata (channels : List Channel)
    (h : ∀ c ∈ channels, c.Metadata ≠ none) : ∃ lines, logChannels channels = some lines := by
  induction channels with
  | nil => exact ⟨[], rfl⟩
  | cons c rest ih =>
    obtain ⟨lines, hl⟩ := ih (fun c1 hc1 => h c1 (List.mem_cons_of_mem c hc1))
    cases hm : c.Metadata with
    | none => exact absurd hm (h c (List.mem_cons_self c rest))
    | some md => simp [logChannels, hm, hl]

/-- The listing of the discovered services runs through when every service and every
channel came with its metadata. -/
theorem logNetworkServices_of_metadata (services : List NetworkService)
    (h : ∀ s ∈ services, s.Metadata ≠ none ∧ ∀ c ∈ s.Channel, c.Metadata ≠ none) :
    ∃ lines, logNetworkServices services = some lines := by
  induction services with
  | nil => exact ⟨[], rfl⟩
  | cons s rest ih =>
    obtain ⟨lines, hl⟩ := ih (fun s1 hs1 => h s1 (List.mem_cons_of_mem s hs1))
    obtain ⟨hs, hc⟩ := h s (List.mem_cons_self s rest)
    obtain ⟨channels, hch⟩ := logChannels_of_metadata s.Channel hc
    cases hm : s.Metadata with
    | none => exact absurd hm hs
    | some md => simp [logNetworkServices, hm, hch, hl]

/-- The loop of `main` over any list: it ends, and every call of every run it makes
carries the request built for the service of that run. -/
theorem requestConnections_calls (sched : Nat → Nat → Bool) (replies : Nat → BrokerReply)
    (podUID podName namespace_ linuxNS : String) :
    ∀ (l : List (Option networkService)) (i base : Nat),
      ∃ ending runs,
        requestConnections sched replies podUID podName namespace_ linuxNS i base l
          = some (ending, runs)
        ∧ ∀ run ∈ runs, ∀ c ∈ run.result.calls,
            c.cReq = connectionRequest podUID podName namespace_ linuxNS run.ns := by
  intro l
  induction l with
  | nil =>
    intro i base
    exact ⟨.completed, [], rfl, by simp⟩
  | cons entry rest ih =>
    intro i base
    cases entry with
    | none => exact ⟨.panicked, [], rfl, by simp⟩
    | some ns =>
      obtain ⟨r, hr⟩ := requestConnection_terminates (sched i) (fun n => replies (base + n))
        (connectionRequest podUID podName namespace_ linuxNS ns)
      have hcalls := requestConnectionWith_calls _ _ _ _ _ r hr
      cases herr : r.err with
      | some err =>
        refine ⟨.failed (.connection ns.Name err), [{ ns := ns, result := r }], ?_, ?_⟩
        · simp [requestConnections, hr, herr]
        · intro run hrun c hc
          simp only [List.mem_singleton] at hrun
          subst hrun
          exact hcalls c hc
      | none =>
        obtain ⟨ending, runs, h0, h1⟩ := ih (i + 1) (base + r.calls.length)
        refine ⟨ending, { ns := ns, result := r } :: runs, ?_, ?_⟩
        · simp [requestConnections, hr, herr, h0]
        · intro run hrun c hc
          simp only [List.mem_cons] at hrun
          rcases hrun with rfl | hrun
          · exact hcalls c hc
          · exact h1 run hrun c hc

/-- The loop of `main` over a list `l` without nil entries: it ends without a panic; the
runs it makes are for an initial piece of `l`, in order; run `j` is `requestConnection`
for entry `j`, answered by the broker replies that follow those of the runs before it;
every run but the last ends without error; when the loop runs through, all of `l` was run
and no run ended in error; an error line is that of the last run, which ended in error,
and names its service. -/
theorem requestConnections_spec (sched : Nat → Nat → Bool) (replies : Nat → BrokerReply)
    (podUID podName namespace_ linuxNS : String) :
    ∀ (l : List networkService) (i base : Nat),
      ∃ ending runs,
        requestConnections sched replies podUID podName namespace_ linuxNS i base
            (l.map some) = some (ending, runs)
        ∧ ending ≠ .panicked
        ∧ runs.map Run.ns <+: l
        ∧ (∀ j run, runs[j]? = some run →
            requestConnection (sched (i + j))
                (fun n => replies (base + callsBefore (runs.take j) + n))
                (connectionRequest podUID podName namespace_ linuxNS run.ns)
              = some run.result)
        ∧ (∀ j run, runs[j]? = some run → j + 1 < runs.length → run.result.err = none)
        ∧ (ending = .completed →
            runs.map Run.ns = l ∧ ∀ run ∈ runs, run.result.err = none)
        ∧ (∀ f, ending = .failed f → ∃ run err, runs.getLast? = some run
            ∧ run.result.err = some err ∧ f = .connection run.ns.Name err) := by
  intro l
  induction l with
  | nil =>
    intro i base
    refine ⟨.completed, [], rfl, by simp, ?_, ?_, ?_, ?_, ?_⟩
    · simp
    · intro j run h; simp at h
    · intro j run h; simp at h
    · intro _; simp
    · intro f h; cases h
  | cons ns rest ih =>
    intro i base
    obtain ⟨r, hr⟩ := requestConnection_terminates (sched i) (fun n => replies (base + n))
      (connectionRequest podUID podName namespace_ linuxNS ns)
    cases herr : r.err with
    | some err =>
      refine ⟨.failed (.connection ns.Name err), [{ ns := ns, result := r }], ?_, by simp,
        ?_, ?_, ?_, ?_, ?_⟩
      · simp [requestConnections, hr, herr]
      · simp
      · intro j run h
        cases j with
        | zero =>
          simp only [List.getElem?_cons_zero, Option.some.injEq] at h
          subst h
          simpa [callsBefore] using hr
        | succ j => simp at h
      · intro j run h hj
        simp at hj
      · intro h; cases h
      · intro f h
        cases h
        exact ⟨_, err, rfl, herr, rfl⟩
    | none =>
      obtain ⟨ending, runs, h0, hP, hA, hB, hC, hD, hE⟩ :=
        ih (i + 1) (base + r.calls.length)
      refine ⟨ending, { ns := ns, result := r } :: runs, ?_, hP, ?_, ?_, ?_, ?_, ?_⟩
      · simp [requestConnections, hr, herr, h0]
      · simpa using hA
      · intro j run h
        cases j with
        | zero =>
          simp only [List.getElem?_cons_zero, Option.some.injEq] at h
          subst h
          simpa [callsBefore] using hr
        | succ j =>
          simp only [List.getElem?_cons_succ] at h
          have hj := hB j run h
          have e1 : i + (j + 1) = i + 1 + j := by omega
          have e2 : ∀ n,
              base + callsBefore (List.take (j + 1) ({ ns := ns, result := r } :: runs)) + n
                = base + r.calls.length + callsBefore (List.take j runs) + n := by
            intro n
            simp [callsBefore]
            omega
          rw [e1]
          simp only [e2]
          exact hj
      · intro j run h hj
        cases j with
        | zero =>
          simp only [List.getElem?_cons_zero, Option.some.injEq] at h
          subst h
          exact herr
        | succ j =>
          simp only [List.getElem?_cons_succ] at h
          exact hC j run h (by simpa using hj)
      · intro h
        obtain ⟨h1, h2⟩ := hD h
        refine ⟨by simp [h1], ?_⟩
        intro run hrun
        simp only [List.mem_cons] at hrun
        rcases hrun with rfl | hrun
        · exact herr
        · exact h2 run hrun
      · intro f h
        obtain ⟨run, err, h1, h2, h3⟩ := hE f h
        refine ⟨run, err, ?_, h2, h3⟩
        cases runs with
        | nil => simp at h1
        | cons x xs => simpa [List.getLast?_cons_cons] using h1

/-- The runs of `main` are none, or those of its loop over the desired services, entered
with the Linux namespace `tools.GetCurrentNS` returned. -/
theorem mainInit_runs (schedDiscovery : Nat → Bool) (sched : Nat → Nat → Bool)
    (discoveries : Nat → DiscoveryReply) (replies : Nat → BrokerReply)
    (GetCurrentNS : Except GoError String) (podUID podName namespace_ : String)
    (networkServices : List (Option networkService)) :
    ∃ m, mainInit schedDiscovery sched discoveries replies GetCurrentNS podUID podName
          namespace_ networkServices = some m
      ∧ (m.runs = [] ∨ ∃ linuxNS ending, GetCurrentNS = .ok linuxNS
          ∧ requestConnections sched replies podUID podName namespace_ linuxNS 0 0
              networkServices = some (ending, m.runs)) := by
  obtain ⟨d, hd⟩ := getNetworkServices_terminates schedDiscovery discoveries
  unfold mainInit
  rw [hd]
  cases hderr : d.err with
  | some err =>
    simp only [hderr]
    exact ⟨_, rfl, Or.inl rfl⟩
  | none =>
    simp only [hderr]
    by_cases hlen : d.services.length = 0
    · simp only [hlen, if_true]
      exact ⟨_, rfl, Or.inl rfl⟩
    · simp only [hlen, if_false]
      cases hlog : logNetworkServices d.services with
      | none => exact ⟨_, rfl, Or.inl rfl⟩
      | some lines =>
        cases GetCurrentNS with
        | error err => exact ⟨_, rfl, Or.inl rfl⟩
        | ok linuxNS =>
          obtain ⟨ending, runs, h0, _⟩ := requestConnections_calls sched replies podUID
            podName namespace_ linuxNS networkServices 0 0
          simp only [h0]
          cases ending with
          | completed => exact ⟨_, rfl, Or.inr ⟨linuxNS, _, rfl, h0⟩⟩
          | failed f => exact ⟨_, rfl, Or.inr ⟨linuxNS, _, rfl, h0⟩⟩
          | panicked => exact ⟨_, rfl, Or.inr ⟨linuxNS, _, rfl, h0⟩⟩

/-! ## Properties of `main` -/

/-- C6: every call `requestConnection` makes carries the request it was given, and in a
run of `main` every call made for a desired service carries the request built for that
service, whose RequestId is the pod UID. -/
theorem request_same_on_every_attempt (schedDiscovery : Nat → Bool)
    (sched : Nat → Nat → Bool) (discoveries : Nat → DiscoveryReply)
    (replies : Nat → BrokerReply) (GetCurrentNS : Except GoError String)
    (podUID podName namespace_ : String) (networkServices : List (Option networkService))
    (cReq : ConnectionRequest) :
    (∃ r, requestConnection (sched 0) replies cReq = some r
        ∧ ∀ c ∈ r.calls, c.cReq = cReq)
    ∧ (∃ m, mainInit schedDiscovery sched discoveries replies GetCurrentNS podUID podName
          namespace_ networkServices = some m
        ∧ ∀ run ∈ m.runs, ∀ c ∈ run.result.calls,
            c.cReq.RequestId = podUID
            ∧ c.cReq = connectionRequest podUID podName namespace_ c.cReq.LinuxNamespace
                run.ns) := by
  constructor
  · obtain ⟨r, hr⟩ := requestConnection_terminates (sched 0) replies cReq
    exact ⟨r, hr, requestConnectionWith_calls _ _ _ _ _ r hr⟩
  · obtain ⟨m, hm, hruns⟩ := mainInit_runs schedDiscovery sched discoveries replies
      GetCurrentNS podUID podName namespace_ networkServices
    refine ⟨m, hm, ?_⟩
    intro run hrun c hc
    rcases hruns with hnil | ⟨linuxNS, ending, _, hreq⟩
    · rw [hnil] at hrun
      cases hrun
    · obtain ⟨ending1, runs1, h0, hcalls⟩ := requestConnections_calls sched replies podUID
        podName namespace_ linuxNS networkServices 0 0
      rw [hreq] at h0
      cases h0
      rw [hcalls run hrun c hc]
      exact ⟨rfl, rfl⟩

/-- C9 (counterexample): discovery succeeds with a non-empty list and the broker would
accept every request, yet `main` exits with a status other than 0 although no admission
failed: with status 1 and no run when `tools.GetCurrentNS` fails; with status 2 and no
run when a discovered service came without metadata; with status 2 after the run for `A`
when the entry after `A` in the desired list is null. -/
theorem main_exits_without_failed_admission :
    (getNetworkServices (fun _ => true) discoveryOfOne).map
          (fun d => (d.err, d.services.length)) = some (none, 1)
      ∧ (mainInit (fun _ => true) (fun _ _ => true) discoveryOfOne (fun _ => acceptedReply)
            (.error (.other "no netns")) "uid-1" "pod" "default"
            (exampleServices.map some)).map
          (fun m => (m.exitCode, m.fatal, m.runs))
        = some (1, some (.linuxNS "default" "pod" (.other "no netns")), [])
      ∧ (getNetworkServices (fun _ => true) discoveryWithoutMetadata).map
          (fun d => (d.err, d.services.length)) = some (none, 1)
      ∧ (mainInit (fun _ => true) (fun _ _ => true) discoveryWithoutMetadata
            (fun _ => acceptedReply) (.ok "ns-1") "uid-1" "pod" "default"
            (exampleServices.map some)).map
          (fun m => (m.exitCode, m.fatal, m.runs))
        = some (2, none, [])
      ∧ (mainInit (fun _ => true) (fun _ _ => true) discoveryOfOne (fun _ => acceptedReply)
            (.ok "ns-1") "uid-1" "pod" "default" exampleServicesWithNull).map
          (fun m => (m.exitCode, m.fatal,
            m.runs.map (fun run => (run.ns.Name, run.result.err))))
        = some (2, none, [("A", none)]) :=
  ⟨by decide, by decide, by decide, by decide, by decide⟩

/-- C9 (amended): after a successful discovery in which every discovered service and
channel came with its metadata, and for a desired list `l` without null entries, `main`
runs no `requestConnection` and exits with status 0 when the discovered list is empty.
Otherwise, when `tools.GetCurrentNS` fails it exits with status 1 and that error line
before any run; when it returns a namespace, `main` runs `requestConnection` for an
initial piece of the desired list, in order, each run answered by the broker replies that
follow those of the runs before it and calling the broker with the request of its own
service only; every run but the last ends without error; the exit status is 1 exactly
when some run ends in error, and then that run is the last one and the error line names
its service; with exit status 0 the whole list was run. -/
theorem main_runs_in_order (schedDiscovery : Nat → Bool)
    (sched : Nat → Nat → Bool) (discoveries : Nat → DiscoveryReply)
    (replies : Nat → BrokerReply) (GetCurrentNS : Except GoError String)
    (podUID podName namespace_ : String)
    (l : List networkService) (d : DiscResult)
    (hd : getNetworkServices schedDiscovery discoveries = some d) (hok : d.err = none)
    (hmeta : ∀ s ∈ d.services, s.Metadata ≠ none ∧ ∀ c ∈ s.Channel, c.Metadata ≠ none) :
    ∃ m, mainInit schedDiscovery sched discoveries replies GetCurrentNS podUID podName
          namespace_ (l.map some) = some m
      ∧ (d.services = [] → m.exitCode = 0 ∧ m.runs = [])
      ∧ (d.services ≠ [] →
          (∀ err, GetCurrentNS = .error err →
            m.exitCode = 1 ∧ m.runs = []
              ∧ m.fatal = some (.linuxNS namespace_ podName err))
          ∧ (∀ linuxNS, GetCurrentNS = .ok linuxNS →
            m.runs.map Run.ns <+: l
            ∧ (∀ j run, m.runs[j]? = some run →
                requestConnection (sched j)
                    (fun n => replies (callsBefore (m.runs.take j) + n))
                    (connectionRequest podUID podName namespace_ linuxNS run.ns)
                  = some run.result)
            ∧ (∀ run ∈ m.runs, ∀ c ∈ run.result.calls,
                c.cReq = connectionRequest podUID podName namespace_ linuxNS run.ns)
            ∧ (∀ j run, m.runs[j]? = some run → j + 1 < m.runs.length →
                run.result.err = none)
            ∧ (m.exitCode = 0 ∨ m.exitCode = 1)
            ∧ (m.exitCode = 1 ↔ ∃ run ∈ m.runs, run.result.err ≠ none)
            ∧ (m.exitCode = 0 → m.runs.map Run.ns = l)
            ∧ (m.exitCode = 1 → ∃ run err, m.runs.getLast? = some run
                ∧ run.result.err = some err
                ∧ m.fatal = some (.connection run.ns.Name err)))) := by
  unfold mainInit
  rw [hd]
  simp only [hok]
  by_cases hlen : d.services.length = 0
  · simp only [hlen, if_true]
    refine ⟨_, rfl, fun _ => ⟨rfl, rfl⟩, fun hne => ?_⟩
    exact absurd (List.length_eq_zero.1 hlen) hne
  · simp only [hlen, if_false]
    obtain ⟨lines, hlog⟩ := logNetworkServices_of_metadata d.services hmeta
    simp only [hlog]
    have hnil : d.services = [] → False := fun h => hlen (by simp [h])
    cases GetCurrentNS with
    | error err0 =>
      refine ⟨_, rfl, fun h => (hnil h).elim, fun _ => ⟨?_, ?_⟩⟩
      · intro err herr
        cases herr
        exact ⟨rfl, rfl, rfl⟩
      · intro linuxNS h
        cases h
    | ok linuxNS0 =>
      obtain ⟨ending, runs, h0, hP, hA, hB, hC, hD, hE⟩ := requestConnections_spec sched
        replies podUID podName namespace_ linuxNS0 l 0 0
      simp only [h0]
      have hB1 : ∀ j run, runs[j]? = some run →
          requestConnection (sched j) (fun n => replies (callsBefore (runs.take j) + n))
            (connectionRequest podUID podName namespace_ linuxNS0 run.ns)
              = some run.result := by
        intro j run h
        simpa using hB j run h
      have hcalls : ∀ run ∈ runs, ∀ c ∈ run.result.calls,
          c.cReq = connectionRequest podUID podName namespace_ linuxNS0 run.ns := by
        intro run hrun c hc
        obtain ⟨j, hj⟩ := List.getElem?_of_mem hrun
        exact requestConnectionWith_calls _ _ _ _ _ _ (hB1 j run hj) c hc
      cases ending with
      | panicked => exact absurd rfl hP
      | completed =>
        obtain ⟨h1, h2⟩ := hD rfl
        refine ⟨_, rfl, fun h => (hnil h).elim, fun _ => ⟨?_, ?_⟩⟩
        · intro err herr
          cases herr
        · intro linuxNS h
          cases h
          refine ⟨hA, hB1, hcalls, hC, Or.inl rfl, ?_, fun _ => h1, ?_⟩
          · constructor
            · intro h; cases h
            · rintro ⟨run, hrun, herr⟩
              exact absurd (h2 run hrun) herr
          · intro h; cases h
      | failed f =>
        obtain ⟨run, err, h1, h2, h3⟩ := hE f rfl
        refine ⟨_, rfl, fun h => (hnil h).elim, fun _ => ⟨?_, ?_⟩⟩
        · intro err1 herr
          cases herr
        · intro linuxNS h
          cases h
          refine ⟨hA, hB1, hcalls, hC, Or.inr rfl, ?_, ?_,
            fun _ => ⟨run, err, h1, h2, by rw [h3]⟩⟩
          · constructor
            · intro _
              exact ⟨run, List.mem_of_getLast?_eq_some h1, by simp [h2]⟩
            · intro _; rfl
          · intro h; cases h

/-- C9 (witness): desired services A and B, a broker that accepts A and answers NotFound
for B: `main` runs A then B, one call each, and exits with status 1 naming B. -/
theorem main_runs_in_order_witness :
    getNetworkServices (fun _ => true) discoveryOfOne = some discoveredOne
      ∧ discoveredOne.err = none
      ∧ (∀ s ∈ discoveredOne.services,
          s.Metadata ≠ none ∧ ∀ c ∈ s.Channel, c.Metadata ≠ none)
      ∧ (∃ m, mainInit (fun _ => true) (fun _ _ => true) discoveryOfOne acceptedThenNotFound
            (.ok "ns-1") "uid-1" "pod" "default" (exampleServices.map some) = some m
          ∧ (m.exitCode = 1 ↔ ∃ run ∈ m.runs, run.result.err ≠ none)
          ∧ m.runs.map Run.ns <+: exampleServices)
      ∧ (mainInit (fun _ => true) (fun _ _ => true) discoveryOfOne acceptedThenNotFound
            (.ok "ns-1") "uid-1" "pod" "default" (exampleServices.map some)).map
          (fun m => (m.exitCode, m.fatal,
            m.runs.map (fun run => (run.ns.Name, run.result.calls.length))))
        = some (1, some (.connection "B"
            (.connectionFailed (some (.status .NotFound "no such service")))),
            [("A", 1), ("B", 1)]) :=
  ⟨by decide, rfl, by decide,
    (let ⟨m, hm, _, h⟩ := main_runs_in_order (fun _ => true) (fun _ _ => true)
        discoveryOfOne acceptedThenNotFound (.ok "ns-1") "uid-1" "pod" "default"
        exampleServices discoveredOne (by decide) rfl (by decide)
     ⟨m, hm, ((h (by decide)).2 "ns-1" rfl).2.2.2.2.2.1, ((h (by decide)).2 "ns-1" rfl).1⟩),
    by decide⟩

/-- C10 (the code at a failing input): when the flag `-nsm-socket` is not given, the
socket path `main` uses is the empty default of the flag, not `clientSocketPath`; a
given path is used as it is. In an environment where the built-in default path exists and
the broker would accept, `main` without the flag checks the empty path and exits with
status 1. -/
theorem clientSocket_flag_not_given (clientSocketPath : String) :
    clientSocket clientSocketPath (flagString "" none) = ""
      ∧ (∀ userPath, clientSocket clientSocketPath (flagString "" (some userPath))
          = userPath)
      ∧ exampleEnv.stat exampleEnv.clientSocketPath = none
      ∧ (main exampleEnv (fun _ => true) (fun _ _ => true) discoveryOfOne
            (fun _ => acceptedReply)).map (fun m => (m.exitCode, m.fatal))
          = some (1, some (.socketStat "" (.other "no such file or directory"))) :=
  ⟨rfl, fun _ => rfl, by decide, by decide⟩

end NsmInit
